import Mathlib

/-!
# Verification of the DAP4 metadata builder (`libdap4/d4meta.c`)

This file gives a shallow embedding, in Lean 4, of the schema-to-type-system
builder implemented in `d4meta.c` of netcdf-c, and proves (or refutes)
properties of it.

Conventions used throughout:

* C machine integers are modelled as `Nat` / `Int` with explicit reductions
  modulo `2^w` where overflow or truncation matters.
* The C `union ATOMICS` (eight bytes overlaid with `i8[8]`, `u8[8]`, `i16[4]`,
  `u16[4]`, `i32[2]`, `u32[2]`, `i64[1]`, `u64[1]`, `f32[2]`, `f64[1]`) is
  modelled as a list of eight bytes in little-endian order; each union member
  access is modelled as reading/writing the corresponding low bytes.
* IEEE-754 binary32/binary64 values handled by the C casts (`(float)` applied
  to a `double`, and `sscanf("%lf")`) are modelled bit-exactly by executable
  encode/decode/rounding functions over numerator/denominator pairs.
* Fallible C functions returning an `int` status are modelled as returning
  the status (`Int`) together with their result/state; C undefined behaviour
  (dereferencing a null pointer) is modelled by a distinguished `Crash`
  outcome in an `Except`.
* The destination metadata store (the netcdf-4 library, an out-of-scope
  collaborator) is modelled by a small state machine recording a trace of
  every call; definition calls fail exactly when the store would reject them
  (duplicate type name in a group) or when a failure is injected, modelling
  the opaque store failures of the specification.
* The `NCCHECK(e)` macro of the source is `{ if((ret=(e))) goto done; }` and
  `FAIL(code,...)` records an error message and does `{ ret=code; goto done; }`;
  both are modelled by early returns of the corresponding status.

The file is organised as: all definitions first, then all theorems.
-/

/-! ## Constants of the netcdf interface

Numeric codes of the atomic netcdf external types (`netcdf.h`) and the error
statuses used by `d4meta.c`.  The atomic type nodes get `meta.id = subsort`,
so the codes below double as the `meta.id` of atomic types. -/

def NC_NAT : Nat := 0
def NC_BYTE : Nat := 1
def NC_CHAR : Nat := 2
def NC_SHORT : Nat := 3
def NC_INT : Nat := 4
def NC_FLOAT : Nat := 5
def NC_DOUBLE : Nat := 6
def NC_UBYTE : Nat := 7
def NC_USHORT : Nat := 8
def NC_UINT : Nat := 9
def NC_INT64 : Nat := 10
def NC_UINT64 : Nat := 11
def NC_STRING : Nat := 12
def NC_MAX_ATOMIC_TYPE : Nat := 12
def NC_VLEN : Nat := 13
def NC_OPAQUE : Nat := 14
def NC_ENUM : Nat := 15
def NC_COMPOUND : Nat := 16

/-- `NC_SEQ` and `NC_STRUCT` are the local extensions to `nc_type` that the
DAP4 headers (outside the core source) add for sequence and structure
subsorts; their exact values are immaterial beyond being distinct and above
`NC_MAX_ATOMIC_TYPE`. -/
def NC_SEQ : Nat := 17
def NC_STRUCT : Nat := 18

def NC_NOERR : Int := 0
def NC_ENAMEINUSE : Int := -42
def NC_EBADTYPE : Int := -45
def NC_EINVAL : Int := -36
def NC_ERANGE : Int := -60
def NC_ENOMEM : Int := -61
def NC_GLOBAL : Int := -1

/-- Modelled from the spec: `NCD4_typesize`, the Atomic Type Table — the fixed
mapping from a primitive type code to its byte width (8/16/32/64-bit signed or
unsigned integers, 32/64-bit floats, and a pointer-sized text handle).  The
function itself lives in `d4util.c`, outside the core source. -/
def NCD4_typesize (tid : Nat) : Nat :=
  if tid = NC_BYTE ∨ tid = NC_CHAR ∨ tid = NC_UBYTE then 1
  else if tid = NC_SHORT ∨ tid = NC_USHORT then 2
  else if tid = NC_INT ∨ tid = NC_UINT ∨ tid = NC_FLOAT then 4
  else if tid = NC_INT64 ∨ tid = NC_UINT64 ∨ tid = NC_DOUBLE then 8
  else if tid = NC_STRING then 8
  else 0

/-- Models `sizeof(nc_vlen_t)`, the fixed byte size of the variable-length
handle (a length plus a pointer), on the usual LP64 platform.  The layout
results only depend on this being one fixed constant. -/
def sizeof_nc_vlen_t : Nat := 16

namespace Layout

/-!
## The Offset Calculator (`computeOffsets` / `computeTypeSize`)

The type-usage graph reaching a compound type is acyclic (a stated
precondition of the source), so the types embedded in a compound type are
modelled by an inductive tree.  A structure/sequence field is a member
variable node whose `subsort` mirrors the subsort of its base type, so the
per-field dispatch of `computeOffsets` (which the C code performs on
`field->subsort`) is modelled as a match on the field's base type.
-/

/-- A type node as seen by the Offset Calculator: the subsort of an
`NCD4node` of sort `NCD4_TYPE` together with the structural fields the size
computation reads.  `atomic tid` carries `meta.id` (equal to the netcdf
atomic type code); `opaqueT` carries `opaque.size`; composite types carry
their member (field) variables as (name, base type) pairs. -/
inductive D4Type where
  | atomic (tid : Nat)
  | enumT (base : D4Type)
  | opaqueT (size : Nat)
  | structT (fields : List (String × D4Type))
  | seqT (fields : List (String × D4Type))

mutual

/-- `computeTypeSize` of `d4meta.c`: the byte size of a type.  The `default`
branch of the C switch is `NCD4_typesize(type->meta.id)`, which for an atomic
type is `NCD4_typesize` of its type code; `NC_OPAQUE` uses the declared size
or the vlen-handle size when the declared size is 0; `NC_ENUM` recurses into
the underlying type; `NC_SEQ` is a vlen handle; `NC_STRUCT` returns the total
accumulated by `computeOffsets` (cached in `meta.offset` by the C code). -/
def computeTypeSize : D4Type → Nat
  | .atomic tid => NCD4_typesize tid
  | .enumT base => computeTypeSize base
  | .opaqueT sz => if sz = 0 then sizeof_nc_vlen_t else sz
  | .seqT _ => sizeof_nc_vlen_t
  | .structT fields => (computeOffsetsFrom 0 fields).2

/-- `computeOffsets` of `d4meta.c`, with the running offset made explicit.
Returns the per-field offsets in order together with the final running
offset, which the C code stores as the compound's total size
(`cmpd->meta.offset`).  The inline match mirrors the C dispatch: a
structure-typed field first recursively lays out the nested structure and
contributes its total size; a sequence-typed field contributes
`sizeof(nc_vlen_t)`; any other field contributes `computeTypeSize` of its
base type. -/
def computeOffsetsFrom : Nat → List (String × D4Type) → List Nat × Nat
  | off, [] => ([], off)
  | off, (_, t) :: rest =>
      let size :=
        match t with
        | .structT fs => (computeOffsetsFrom 0 fs).2
        | .seqT _ => sizeof_nc_vlen_t
        | u => computeTypeSize u
      let (os, total) := computeOffsetsFrom (off + size) rest
      (off :: os, total)

end

/-- The per-field width used by the Offset Calculator, extracted from the
inline dispatch of `computeOffsetsFrom` so that the layout theorems can
speak about "the declared width of field i". -/
def fieldWidth : D4Type → Nat
  | .structT fs => (computeOffsetsFrom 0 fs).2
  | .seqT _ => sizeof_nc_vlen_t
  | u => computeTypeSize u

end Layout

namespace AttrEnc

/-!
## The Attribute Value Encoder
(`compileAttrValues`, `convertString`, `downConvert`, `copyAtomic`,
`decodeEconst`)

The `union ATOMICS` is modelled as its eight bytes in little-endian order.
-/

/-- The eight bytes of a `union ATOMICS`, least significant first. -/
abbrev UBytes := List Nat

/-- The `k` little-endian bytes of a value (i.e. the value modulo `2^(8k)`). -/
def leBytes : Nat → Nat → List Nat
  | 0, _ => []
  | k + 1, v => (v % 256) :: leBytes k (v / 256)

/-- Reassemble a little-endian byte list into a value. -/
def leVal : List Nat → Nat
  | [] => 0
  | b :: r => b % 256 + 256 * leVal r

/-- Store a `k`-byte member at the start of the union, keeping the remaining
bytes (C unions overlay all members at offset 0). -/
def writeLow (k : Nat) (v : Nat) (u : UBytes) : UBytes :=
  leBytes k v ++ u.drop k

/-- Reading `converter->u64[0]` (or, as a bit pattern, `i64[0]`/`f64[0]`):
all eight bytes of the union. -/
def u64of (u : UBytes) : Nat := leVal (u.take 8)

/-- The union contents used for a C local `union ATOMICS x;`.  The C object
is uninitialized, but on every modelled path all eight bytes are written
before any read, so the initial contents are immaterial; zeros are used. -/
def atomicsInit : UBytes := leBytes 8 0

/-! ### Bit-exact IEEE-754 helpers for the C `double`/`float` semantics -/

/-- Bit length of a natural number (`0` for `0`), with explicit fuel so that
the definition is structurally recursive and kernel-reducible.  The fuel is
always instantiated generously. -/
def bitlenF : Nat → Nat → Nat
  | 0, _ => 0
  | f + 1, n => if n = 0 then 0 else bitlenF f (n / 2) + 1

def bitlen (n : Nat) : Nat := bitlenF 4096 n

/-- Decide `a / b < 2^e` for positive naturals `a`, `b` and integer `e`. -/
def qLtPow2 (a b : Nat) (e : Int) : Bool :=
  if 0 ≤ e then a < b * 2 ^ e.toNat else a * 2 ^ (-e).toNat < b

/-- Floor of the base-2 logarithm of `a / b` (`a`, `b` positive): start from
the bit-length estimate and adjust until `2^e ≤ a/b < 2^(e+1)`. -/
def floorLog2q (a b : Nat) : Int :=
  let rec adjust : Nat → Int → Int
    | 0, e => e
    | f + 1, e =>
        if qLtPow2 a b e then adjust f (e - 1)
        else if qLtPow2 a b (e + 1) then e
        else adjust f (e + 1)
  adjust 64 ((bitlen a : Int) - (bitlen b : Int))

/-- Round `n / d` (`d` positive) to the nearest integer, ties to even. -/
def rne (n d : Nat) : Nat :=
  let q := n / d
  let r := n % d
  if d < 2 * r then q + 1
  else if 2 * r < d then q
  else if q % 2 = 1 then q + 1 else q

/-- Encode the rational `(-1)^sign * a / b` as an IEEE-754 binary
floating-point bit pattern with `mantbits` stored mantissa bits and `ebits`
exponent bits, rounding to nearest, ties to even (the C default rounding
mode used by casts and by decimal-to-double conversion).  Overflow encodes
infinity; tiny values encode subnormals. -/
def encodeIEEE (mantbits ebits : Nat) (sign : Bool) (a b : Nat) : Nat :=
  let bias : Int := 2 ^ (ebits - 1) - 1
  let prec := mantbits + 1
  let signBit := (if sign then 1 else 0) * 2 ^ (ebits + mantbits)
  if a = 0 then signBit
  else
    let e := floorLog2q a b
    let emin : Int := 1 - bias
    let eScale := if e < emin then emin else e
    let s : Int := (prec : Int) - 1 - eScale
    let nd := if 0 ≤ s then (a * 2 ^ s.toNat, b) else (a, b * 2 ^ (-s).toNat)
    let m0 := rne nd.1 nd.2
    let me := if m0 = 2 ^ prec then (2 ^ (prec - 1), eScale + 1) else (m0, eScale)
    if 2 ^ (ebits - 1) - 1 < me.2 then
      signBit + (2 ^ ebits - 1) * 2 ^ mantbits
    else if me.1 < 2 ^ (prec - 1) then
      signBit + me.1
    else
      signBit + (me.2 + bias).toNat * 2 ^ mantbits + (me.1 - 2 ^ (prec - 1))

/-- Decode a finite IEEE-754 bit pattern into (sign, numerator, denominator).
Patterns with an all-ones exponent (infinities/NaNs) are out of scope: the
modelled pipeline never produces them on the inputs evaluated here. -/
def decodeIEEE (mantbits ebits : Nat) (pat : Nat) : Bool × Nat × Nat :=
  let mant := pat % 2 ^ mantbits
  let expf := (pat / 2 ^ mantbits) % 2 ^ ebits
  let sign := (pat / 2 ^ (mantbits + ebits)) % 2 = 1
  let bias := 2 ^ (ebits - 1) - 1
  if expf = 0 then
    (sign, mant, 2 ^ (bias - 1 + mantbits))
  else
    let e : Int := (expf : Int) - bias - mantbits
    if 0 ≤ e then (sign, (2 ^ mantbits + mant) * 2 ^ e.toNat, 1)
    else (sign, 2 ^ mantbits + mant, 2 ^ (-e).toNat)

/-- The C cast `(float)d` on a `double` bit pattern: decode as binary64,
round to binary32. -/
def castDoubleToFloat (pat64 : Nat) : Nat :=
  let sab := decodeIEEE 52 11 pat64
  encodeIEEE 23 8 sab.1 sab.2.1 sab.2.2

/-! ### `sscanf` parsing semantics

`sscanf(s, fmt, &x)` with one conversion returns 1 on success, which the
source checks; the model returns `none` on failure.  Each parser skips
leading white space, as `sscanf` numeric conversions do, and reads the
longest valid prefix (so, e.g., `%lld` applied to `"1.5"` succeeds with 1). -/

def isDigit (c : Char) : Bool := '0' ≤ c ∧ c ≤ '9'

def skipWs : List Char → List Char
  | [] => []
  | c :: r => if c = ' ' ∨ c = '\t' ∨ c = '\n' ∨ c = '\r' then skipWs r else c :: r

/-- Read a maximal run of decimal digits; `none` when the run is empty. -/
def readDigits : List Char → Option (Nat × Nat × List Char)
  | cs =>
    let rec go : List Char → Nat → Nat → Nat × Nat × List Char
      | [], acc, n => (acc, n, [])
      | c :: r, acc, n =>
          if isDigit c then go r (acc * 10 + (c.toNat - '0'.toNat)) (n + 1)
          else (acc, n, c :: r)
    match go cs 0 0 with
    | (_, 0, _) => none
    | (v, n, rest) => some (v, n, rest)

def readSign : List Char → Bool × List Char
  | '-' :: r => (true, r)
  | '+' :: r => (false, r)
  | cs => (false, cs)

/-- `sscanf(s, "%lld", ...)`: the parsed signed decimal value. -/
def sscanf_lld (s : String) : Option Int :=
  let cs := skipWs s.data
  let sg := readSign cs
  match readDigits sg.2 with
  | none => none
  | some (v, _, _) => some (if sg.1 then -(v : Int) else (v : Int))

/-- `sscanf(s, "%llu", ...)`: the parsed decimal value as a 64-bit pattern
(`strtoull` semantics: a leading minus negates modulo `2^64`). -/
def sscanf_llu (s : String) : Option Nat :=
  let cs := skipWs s.data
  let sg := readSign cs
  match readDigits sg.2 with
  | none => none
  | some (v, _, _) =>
      some (if sg.1 then (2 ^ 64 - v % 2 ^ 64) % 2 ^ 64 else v % 2 ^ 64)

/-- `sscanf(s, "%lf", ...)`: parse a decimal floating literal
`[±] digits [. digits] [e|E [±] digits]` and return the exact rational as
(sign, numerator, denominator); the caller rounds it to binary64.  (The rare
hexadecimal/infinity/nan spellings accepted by C are not modelled; no
evaluated input uses them.) -/
def sscanf_lf (s : String) : Option (Bool × Nat × Nat) :=
  let cs := skipWs s.data
  let sg := readSign cs
  let ip := readDigits sg.2
  let intPart : Nat := match ip with | some (v, _, _) => v | none => 0
  let afterInt : List Char := match ip with | some (_, _, r) => r | none => sg.2
  let frac : Option (Nat × Nat × List Char) :=
    match afterInt with
    | '.' :: r =>
        match readDigits r with
        | some (v, n, r2) => some (v, n, r2)
        | none => none
    | _ => none
  let fracPart : Nat := match frac with | some (v, _, _) => v | none => 0
  let fracLen : Nat := match frac with | some (_, n, _) => n | none => 0
  let afterFrac : List Char := match frac with | some (_, _, r) => r | none => afterInt
  if ip = none ∧ frac = none then none
  else
    let expo : Int :=
      match afterFrac with
      | 'e' :: r | 'E' :: r =>
          let es := readSign r
          match readDigits es.2 with
          | some (v, _, _) => if es.1 then -(v : Int) else (v : Int)
          | none => 0
      | _ => 0
    let num0 := intPart * 10 ^ fracLen + fracPart
    let den0 := 10 ^ fracLen
    if 0 ≤ expo then some (sg.1, num0 * 10 ^ expo.toNat, den0)
    else some (sg.1, num0, den0 * 10 ^ (-expo).toNat)

/-! ### The conversion pipeline of `d4meta.c` -/

/-- `downConvert` of `d4meta.c`: reads `u64`/`i64`/`f64` from the union and
stores the value narrowed to the subsort's width back at the start of the
union.  Always returns `NC_NOERR`, so only the union is returned.  The
signed/unsigned integer narrowing casts keep the low bytes of the 64-bit
pattern; the `NC_FLOAT` case performs `f32[0] = (float)f64`, i.e. rounds the
union's current eight bytes, read as a binary64, to a binary32;
`NC_DOUBLE` stores the same double back (bytes unchanged); `NC_STRING`
stores the same pointer back; `NC_CHAR` has no case in the C switch. -/
def downConvert (u : UBytes) (subsort : Nat) : UBytes :=
  if subsort = NC_BYTE then writeLow 1 (u64of u) u
  else if subsort = NC_UBYTE then writeLow 1 (u64of u) u
  else if subsort = NC_SHORT then writeLow 2 (u64of u) u
  else if subsort = NC_USHORT then writeLow 2 (u64of u) u
  else if subsort = NC_INT then writeLow 4 (u64of u) u
  else if subsort = NC_UINT then writeLow 4 (u64of u) u
  else if subsort = NC_INT64 then writeLow 8 (u64of u) u
  else if subsort = NC_UINT64 then writeLow 8 (u64of u) u
  else if subsort = NC_FLOAT then writeLow 4 (castDoubleToFloat (u64of u)) u
  else u

/-- `convertString` of `d4meta.c`: parse the text into the union according to
the base type's numeric family (each successful parse writes the full eight
bytes), then tail-call `downConvert`.  A failed parse returns `NC_ERANGE`.
The `NC_STRING` case stores a fresh heap copy of the text into the pointer
member; the pointer itself is not modelled (no theorem below reads it), so
that case leaves the modelled bytes unchanged.  A subsort absent from the C
switch (e.g. `NC_CHAR`) falls through to `downConvert` with the union
untouched. -/
def convertString (u : UBytes) (subsort : Nat) (s : String) : Int × UBytes :=
  if subsort = NC_BYTE ∨ subsort = NC_SHORT ∨ subsort = NC_INT ∨ subsort = NC_INT64 then
    match sscanf_lld s with
    | none => (NC_ERANGE, u)
    | some v => (NC_NOERR, downConvert (writeLow 8 (v % 2 ^ 64).toNat u) subsort)
  else if subsort = NC_UBYTE ∨ subsort = NC_USHORT ∨ subsort = NC_UINT ∨
      subsort = NC_UINT64 then
    match sscanf_llu s with
    | none => (NC_ERANGE, u)
    | some v => (NC_NOERR, downConvert (writeLow 8 v u) subsort)
  else if subsort = NC_FLOAT ∨ subsort = NC_DOUBLE then
    match sscanf_lf s with
    | none => (NC_ERANGE, u)
    | some sab =>
        (NC_NOERR, downConvert (writeLow 8 (encodeIEEE 52 11 sab.1 sab.2.1 sab.2.2) u) subsort)
  else (NC_NOERR, downConvert u subsort)

/-- An enumeration constant node: its name and `en.ecvalue.u64`, the 64-bit
pattern of the constant's value union (filled by the out-of-scope parser). -/
structure EConst where
  name : String
  value : Nat

/-- An enumeration type node: the subsort (`meta.id`) of its underlying
atomic base type and its constants in declared order. -/
structure EnumInfo where
  basetid : Nat
  econsts : List EConst

/-- `decodeEconst` of `d4meta.c`: first scan the constants in declared order
for an exact name match; failing that, parse the text as a number of the
enum's underlying family (into a fresh local union) and scan for a constant
whose `ecvalue.u64` equals the parsed union's `u64`; no match at all is
`NC_EINVAL`.  On success the C code copies the matching constant's whole
value union into the caller's converter; the model returns that 64-bit
pattern. -/
def decodeEconst (en : EnumInfo) (nameorval : String) : Int × Option Nat :=
  match en.econsts.find? (fun ec => ec.name = nameorval) with
  | some ec => (NC_NOERR, some ec.value)
  | none =>
      let rn := convertString atomicsInit en.basetid nameorval
      if rn.1 ≠ NC_NOERR then (rn.1, none)
      else
        match en.econsts.find? (fun ec => ec.value = u64of rn.2) with
        | some ec => (NC_NOERR, some ec.value)
        | none => (NC_EINVAL, none)

/-- The base type of an attribute as `compileAttrValues` sees it: an atomic
type node (`meta.id` = subsort = the type code), an enumeration node with its
underlying atomic base, or some other (non-primitive) type node whose
`meta.id` exceeds `NC_MAX_ATOMIC_TYPE`. -/
inductive ABase where
  | atomic (tid : Nat)
  | enumB (info : EnumInfo)
  | nonPrim (metaId : Nat)

def ABase.isenum : ABase → Bool
  | .enumB _ => true
  | _ => false

/-- `truebase->meta.id`: the enum's underlying base for an enum, the type
itself otherwise. -/
def ABase.truebaseId : ABase → Nat
  | .atomic tid => tid
  | .enumB info => info.basetid
  | .nonPrim mid => mid

/-- The per-value loop of `compileAttrValues`.  The single `union ATOMICS
converter` is declared outside the C loop, so it is threaded through the
iterations.  Per value: the enum path calls `decodeEconst` (failure keeps its
status); the other path calls `convertString` (failure is reported as
`NC_EBADTYPE` by the enclosing `FAIL`); then `downConvert(&converter,
truebase)` runs a second time, and `copyAtomic` appends the low
`NCD4_typesize(truebase)` bytes of the union to the output. -/
def compileLoop (basetype : ABase) (truebase size : Nat) :
    List String → UBytes → List Nat → Int × Option (List Nat)
  | [], _, acc => (NC_NOERR, some acc)
  | s :: rest, u, acc =>
      match basetype with
      | .enumB info =>
          match decodeEconst info s with
          | (ret, none) => (ret, none)
          | (_, some v) =>
              let u1 := downConvert (leBytes 8 v) truebase
              compileLoop basetype truebase size rest u1 (acc ++ u1.take size)
      | .atomic tid =>
          let ru := convertString u tid s
          if ru.1 ≠ NC_NOERR then (NC_EBADTYPE, none)
          else
            let u2 := downConvert ru.2 truebase
            compileLoop basetype truebase size rest u2 (acc ++ u2.take size)
      | .nonPrim _ => (NC_EBADTYPE, none)

/-- `compileAttrValues` of `d4meta.c`: check that the true base is a
primitive (`meta.id ≤ NC_MAX_ATOMIC_TYPE`, else `NC_EBADTYPE`), then encode
every textual value into a packed buffer of `count × NCD4_typesize(truebase)`
bytes. -/
def compileAttrValues (basetype : ABase) (values : List String) :
    Int × Option (List Nat) :=
  let truebase := basetype.truebaseId
  if NC_MAX_ATOMIC_TYPE < truebase then (NC_EBADTYPE, none)
  else compileLoop basetype truebase (NCD4_typesize truebase) values atomicsInit []

/-- The element the specification predicts for one textual value of a
non-enum primitive base: parse the text by the base's family, then narrow
once, by a single truncating cast, to the declared width (this is the
"parse, then narrow/cast down" of the spec, with no second conversion). -/
def specNarrowedElement (tid : Nat) (s : String) : Option (List Nat) :=
  if tid = NC_BYTE ∨ tid = NC_SHORT ∨ tid = NC_INT ∨ tid = NC_INT64 then
    (sscanf_lld s).map (fun v => leBytes (NCD4_typesize tid) (v % 2 ^ 64).toNat)
  else if tid = NC_UBYTE ∨ tid = NC_USHORT ∨ tid = NC_UINT ∨ tid = NC_UINT64 then
    (sscanf_llu s).map (fun v => leBytes (NCD4_typesize tid) v)
  else if tid = NC_FLOAT then
    (sscanf_lf s).map (fun sab =>
      leBytes 4 (castDoubleToFloat (encodeIEEE 52 11 sab.1 sab.2.1 sab.2.2)))
  else if tid = NC_DOUBLE then
    (sscanf_lf s).map (fun sab => leBytes 8 (encodeIEEE 52 11 sab.1 sab.2.1 sab.2.2))
  else none

/-- The enumeration of the specification's resolution example: constants
{("RED", 0), ("GREEN", 1)} over a 32-bit signed underlying type. -/
def redGreenEnum : EnumInfo := ⟨NC_INT, [⟨"RED", 0⟩, ⟨"GREEN", 1⟩]⟩

end AttrEnc

namespace Fqn

/-!
## The FQN Namer (`getFieldFQN` / `backslashEscape`)

`getFieldFQN` walks the container back-references of a non-group node up to
(but excluding) the first enclosing group.  That chain is finite and
group-terminated for well-formed schemas, so it is modelled by an inductive
chain type.
-/

/-- A node together with its container chain: either a group (where the walk
of `getFieldFQN` stops without collecting the name) or a non-group node with
its name and its container. -/
inductive Chain where
  | grp (name : String)
  | sub (name : String) (parent : Chain)

/-- The collection loop of `getFieldFQN`:
`for(x=field; !ISGROUP(x->sort); x=x->container) nclistinsert(path,0,x)` —
each visited node is inserted at position 0, so the resulting list holds the
names in root-to-leaf order, the first enclosing group excluded. -/
def upPath : Chain → List String
  | .grp _ => []
  | .sub name parent => upPath parent ++ [name]

/-- One character's output in `backslashEscape` of `d4meta.c`: each of the
characters backslash, slash, dot, at-sign is replaced by the two characters
`\\`; every other character is copied. -/
def escapeChar (c : Char) : List Char :=
  if c = '\\' ∨ c = '/' ∨ c = '.' ∨ c = '@' then ['\\', '\\'] else [c]

def escapeList : List Char → List Char
  | [] => []
  | c :: r => escapeChar c ++ escapeList r

/-- `backslashEscape` of `d4meta.c`. -/
def backslashEscape (s : String) : String := ⟨escapeList s.data⟩

/-- The assembly loop of `getFieldFQN`: append a '.' before every component
except the first, then the escaped component; mirrors
`if(i > 0) ncbytesappend(fqn,'.'); ncbytescat(fqn,escaped);`. -/
def joinDots : List String → String
  | [] => ""
  | n :: rest => backslashEscape n ++ joinRest rest
where joinRest : List String → String
  | [] => ""
  | n :: rest => "." ++ backslashEscape n ++ joinRest rest

/-- `getFieldFQN` of `d4meta.c`: collect the path, escape and join the
components, then append the tail suffix. -/
def getFieldFQN (field : Chain) (tail : String) : String :=
  joinDots (upPath field) ++ tail

/-- The escaping described by the claim under test: "escape each component by
doubling every occurrence of the characters backslash, slash, dot, and
at-sign (each such character appears twice in the escaped component)". -/
def claimEscapeDoubling (s : String) : String :=
  ⟨(s.data.map (fun c =>
      if c = '\\' ∨ c = '/' ∨ c = '.' ∨ c = '@' then [c, c] else [c])).flatten⟩

/-- The whole-name form the claim under test predicts: escape each collected
component by character doubling, join with '.', append the suffix. -/
def claimFQNDoubling (path : List String) (tail : String) : String :=
  String.intercalate "." (path.map claimEscapeDoubling) ++ tail

/-- The escaping the source actually performs, written in specification
style (independently of the character-list recursion of the model of
`backslashEscape`): each occurrence of `\\ / . @` becomes the two-character
sequence `\\\\`, every other character stands. -/
def specEscapeBackslashes (s : String) : String :=
  ⟨(s.data.map (fun c =>
      if c = '\\' ∨ c = '/' ∨ c = '.' ∨ c = '@' then ['\\', '\\'] else [c])).flatten⟩

/-- Plain '.'-prefixed concatenation of a list of components, used to relate
the assembly loop of `getFieldFQN` to `String.intercalate`. -/
def dotPrefixJoin : List String → String
  | [] => ""
  | x :: r => "." ++ x ++ dotPrefixJoin r

end Fqn

namespace Build

/-!
## The build pass
(`NCD4_metabuild`, `build`, `buildGroups`, `buildDimension`,
`buildEnumeration`, `buildOpaque`, `buildStructureType`,
`buildSequenceType`, `buildCompound`, the Variable Builder, `buildMaps`,
`buildAttributes`)

Schema nodes are modelled as records in a table indexed by node id, with
the container/base-type/member references held as node ids, mirroring the
pointer graph.  The write-once `meta.id` build-result slots are modelled by
an id map threaded through the pass.  The destination store records a trace
of every call.
-/

/-- `NCD4sort`: the sort of a schema node. -/
inductive NSort where
  | group | dim | type | var | attr | econst
  deriving DecidableEq

/-- A schema node (`NCD4node`), restricted to the structural fields the
build pass reads.  References to other nodes are node ids. -/
structure NodeRec where
  nid : Nat
  sort : NSort
  subsort : Nat := NC_NAT
  name : String := ""
  container : Option Nat := none
  basetype : Option Nat := none
  dims : List Nat := []
  vars : List Nat := []
  groups : List Nat := []
  attributes : List Nat := []
  maps : List Nat := []
  attrValues : List String := []
  opaqueSize : Nat := 0
  origName : Option String := none
  origGroup : Option Nat := none
  econsts : List Nat := []
  ecvalue : Nat := 0
  dimSize : Nat := 0
  isdataset : Bool := false

/-- The payload of a `nc_put_att` call: a packed byte buffer for numeric
attributes, or an array of text values. -/
inductive AttPayload where
  | bytes (bs : List Nat)
  | strings (ss : List String)
  deriving DecidableEq

/-- One call issued to the destination store. -/
inductive Call where
  | defGrp (parent : Nat) (name : String)
  | defDim (gid : Nat) (name : String) (size : Nat)
  | defEnum (gid : Nat) (basetid : Nat) (name : String)
  | insertEnum (gid : Nat) (tid : Nat) (name : String) (value : Nat)
  | defOpaque (gid : Nat) (size : Nat) (name : String)
  | defVlen (gid : Nat) (name : String) (elemtid : Nat)
  | defCompound (gid : Nat) (size : Nat) (name : Option String)
  | insertCompound (gid : Nat) (tid : Nat) (name : String) (offset : Nat) (ftid : Nat)
  | insertArrayCompound (gid : Nat) (tid : Nat) (name : String) (offset : Nat)
      (ftid : Nat) (rank : Nat) (dimsizes : List Nat)
  | defVar (gid : Nat) (name : String) (tid : Nat) (dimids : List Nat)
  | putAtt (gid : Nat) (varid : Int) (name : String) (tid : Nat) (count : Nat)
      (payload : AttPayload)
  | inqTypeid (gid : Nat) (name : String)
  deriving DecidableEq

/-- Whether a store call is a type-definition call (as opposed to a probe,
a member insertion, or a group/dimension/variable/attribute call). -/
def Call.isTypeDef : Call → Bool
  | .defEnum _ _ _ => true
  | .defOpaque _ _ _ => true
  | .defVlen _ _ _ => true
  | .defCompound _ _ _ => true
  | _ => false

/-- The destination store: a fresh-id counter, the defined types by
(group, name), an injected-failure set for `nc_def_var` (modelling the
opaque store failures of the specification), and the call trace. -/
structure Store where
  nextId : Nat := 100
  typesByName : List (Nat × String × Nat) := []
  failDefVar : List String := []
  trace : List Call := []

def addCall (c : Call) (st : Store) : Store := { st with trace := st.trace ++ [c] }

/-- `lookup-type-by-name`: the type id registered for a name in a group. -/
def lookupType (st : Store) (gid : Nat) (name : String) : Option Nat :=
  (st.typesByName.find? (fun t => t.1 = gid ∧ t.2.1 = name)).map (fun t => t.2.2)

/-- Shared body of the type-defining store entry points: netcdf rejects a
duplicate type name within a group with `NC_ENAMEINUSE`; otherwise a fresh
id is assigned and the (group, name, id) binding recorded. -/
def defineType (gid : Nat) (name : String) (st : Store) : Int × Nat × Store :=
  match lookupType st gid name with
  | some _ => (NC_ENAMEINUSE, 0, st)
  | none => (NC_NOERR, st.nextId,
      { st with nextId := st.nextId + 1,
                typesByName := st.typesByName ++ [(gid, name, st.nextId)] })

def nc_def_grp (parent : Nat) (name : String) (st : Store) : Int × Nat × Store :=
  let st := addCall (.defGrp parent name) st
  (NC_NOERR, st.nextId, { st with nextId := st.nextId + 1 })

def nc_def_dim (gid : Nat) (name : String) (size : Nat) (st : Store) :
    Int × Nat × Store :=
  let st := addCall (.defDim gid name size) st
  (NC_NOERR, st.nextId, { st with nextId := st.nextId + 1 })

def nc_def_enum (gid : Nat) (basetid : Nat) (name : String) (st : Store) :
    Int × Nat × Store :=
  defineType gid name (addCall (.defEnum gid basetid name) st)

def nc_insert_enum (gid : Nat) (tid : Nat) (name : String) (value : Nat)
    (st : Store) : Int × Store :=
  (NC_NOERR, addCall (.insertEnum gid tid name value) st)

def nc_def_opaque (gid : Nat) (size : Nat) (name : String) (st : Store) :
    Int × Nat × Store :=
  defineType gid name (addCall (.defOpaque gid size name) st)

def nc_def_vlen (gid : Nat) (name : String) (elemtid : Nat) (st : Store) :
    Int × Nat × Store :=
  defineType gid name (addCall (.defVlen gid name elemtid) st)

/-- `nc_def_compound`; a NULL name (possible on the alternate-identity
sequence path, where `cmpdtypename` stays NULL) is rejected by the store. -/
def nc_def_compound (gid : Nat) (size : Nat) (name : Option String) (st : Store) :
    Int × Nat × Store :=
  let st := addCall (.defCompound gid size name) st
  match name with
  | none => (NC_EINVAL, 0, st)
  | some nm => defineType gid nm st

def nc_insert_compound (gid : Nat) (tid : Nat) (name : String) (offset : Nat)
    (ftid : Nat) (st : Store) : Int × Store :=
  (NC_NOERR, addCall (.insertCompound gid tid name offset ftid) st)

def nc_insert_array_compound (gid : Nat) (tid : Nat) (name : String)
    (offset : Nat) (ftid : Nat) (rank : Nat) (dimsizes : List Nat) (st : Store) :
    Int × Store :=
  (NC_NOERR, addCall (.insertArrayCompound gid tid name offset ftid rank dimsizes) st)

def nc_inq_typeid (gid : Nat) (name : String) (st : Store) : Int × Nat × Store :=
  let st := addCall (.inqTypeid gid name) st
  match lookupType st gid name with
  | some tid => (NC_NOERR, tid, st)
  | none => (NC_EBADTYPE, 0, st)

def nc_def_var (gid : Nat) (name : String) (tid : Nat) (dimids : List Nat)
    (st : Store) : Int × Nat × Store :=
  let st := addCall (.defVar gid name tid dimids) st
  if name ∈ st.failDefVar then (NC_EINVAL, 0, st)
  else (NC_NOERR, st.nextId, { st with nextId := st.nextId + 1 })

def nc_put_att (gid : Nat) (varid : Int) (name : String) (tid : Nat)
    (count : Nat) (payload : AttPayload) (st : Store) : Int × Store :=
  (NC_NOERR, addCall (.putAtt gid varid name tid count payload) st)

/-- The builder state: the node table (`allnodes`, already in the order the
toposorted build pass consumes), the write-once `meta.id` build-result
slots, the `meta.cmpdid` slots, the root group's node id, the caller's
top-level ncid, and the destination store. -/
structure BState where
  nodes : List NodeRec
  ids : List (Nat × Nat) := []
  cmpdids : List (Nat × Nat) := []
  root : Nat := 0
  ncid : Nat := 0
  store : Store := {}

def lookupNode (s : BState) (nid : Nat) : Option NodeRec :=
  s.nodes.find? (fun n => n.nid = nid)

/-- Read a node's `meta.id` build-result slot (0 = never written). -/
def getId (s : BState) (nid : Nat) : Nat :=
  ((s.ids.find? (fun p => p.1 = nid)).map (fun p => p.2)).getD 0

/-- Write a node's `meta.id` build-result slot (the most recent write wins,
as for the in-place C assignment). -/
def setId (s : BState) (nid v : Nat) : BState :=
  { s with ids := (nid, v) :: s.ids }

/-- C undefined behaviour encountered by the modelled code: dereferencing a
null pointer. -/
inductive Crash where
  | nullDeref
  deriving DecidableEq

/-- `groupFor` of `d4meta.c`: walk `node->container` until a group is
reached; returns that group's node id.  The walk carries fuel (the chain is
finite for well-formed schemas); exhaustion or a dangling reference models
the C walk running off the graph. -/
def groupFor (s : BState) : Nat → Nat → Option Nat
  | 0, _ => none
  | fuel + 1, nid =>
      match lookupNode s nid with
      | none => none
      | some n =>
          if n.sort = .group then some nid
          else
            match n.container with
            | none => none
            | some c => groupFor s fuel c

/-- The collection walk of `getFieldFQN` on the node table: names from the
node up to (but excluding) the first enclosing group, in root-to-leaf
order. -/
def upPathG (s : BState) : Nat → Nat → Option (List String)
  | 0, _ => none
  | fuel + 1, nid =>
      match lookupNode s nid with
      | none => none
      | some n =>
          if n.sort = .group then some []
          else
            match n.container with
            | none => none
            | some c => (upPathG s fuel c).map (fun p => p ++ [n.name])

/-- `getFieldFQN` on the node table: the same escape/join/tail assembly as
the chain model of the `Fqn` namespace, over the collected path. -/
def getFieldFQN (s : BState) (nid : Nat) (tail : String) : Option String :=
  (upPathG s (s.nodes.length + 1) nid).map (fun p => Fqn.joinDots p ++ tail)

/-- Modelled from the spec: `NCD4_findAttr` (in `d4util.c`, outside the core
source) finds a node's attribute with the given name — the probe for the
out-of-band direct-vlen marker tag. -/
def NCD4_findAttr (s : BState) (node : NodeRec) (name : String) : Option Nat :=
  node.attributes.find? (fun anid =>
    match lookupNode s anid with
    | some a => a.name = name
    | none => false)

/-- Modelled from the spec: the reserved internal-tag prefix; attributes
whose names are under this prefix are filtered out before encoding.  (The
exact text, from the out-of-scope headers, is immaterial to the claims.) -/
def UCARTAGNC4 : String := "_edu.ucar."

/-- Modelled from the spec: the out-of-band marker attribute indicating
"direct vlen of scalar" on a sequence. -/
def UCARTAGVLEN : String := "_edu.ucar.isvlen"

/-- Modelled from the spec: the reserved name of the single multi-valued
text attribute holding a variable's map references. -/
def NC4TAGMAPS : String := "_edu.ucar.maps"

/-- Modelled from the spec: the path walk of `NCD4_makeFQN` (in `d4util.c`,
outside the core source) — the names along the container chain from (but
excluding) the dataset root down to the node. -/
def fqnPath (s : BState) : Nat → Nat → Option (List String)
  | 0, _ => none
  | fuel + 1, nid =>
      match lookupNode s nid with
      | none => none
      | some n =>
          match n.container with
          | none => some []
          | some c => (fqnPath s fuel c).map (fun p => p ++ [n.name])

/-- Modelled from the spec: `NCD4_makeFQN`, the fully qualified name of a
node — its escaped path components each preceded by '/'. -/
def NCD4_makeFQN (s : BState) (nid : Nat) : Option String :=
  (fqnPath s (s.nodes.length + 1) nid).map (fun p =>
    String.join (p.map (fun c => "/" ++ Fqn.backslashEscape c)))

/-- Fuel ample for every node-graph recursion on a well-formed schema. -/
def bigFuel (s : BState) : Nat := (s.nodes.length + 1) * (s.nodes.length + 1) + 1

mutual

/-- Conversion of a type node of the graph into the tree model consumed by
the Offset Calculator (`Layout.D4Type`): the dispatch mirrors
`computeTypeSize`'s switch on `type->subsort`, with the default (atomic)
branch keeping `type->meta.id`. -/
def toD4Type (s : BState) : Nat → Nat → Option Layout.D4Type
  | 0, _ => none
  | fuel + 1, nid =>
      match lookupNode s nid with
      | none => none
      | some n =>
          if n.subsort = NC_STRUCT then (toFields s fuel n.vars).map .structT
          else if n.subsort = NC_SEQ then (toFields s fuel n.vars).map .seqT
          else if n.subsort = NC_ENUM then
            match n.basetype with
            | none => none
            | some b => (toD4Type s fuel b).map .enumT
          else if n.subsort = NC_OPAQUE then some (.opaqueT n.opaqueSize)
          else some (.atomic (getId s nid))

/-- Conversion of a compound type's member variables: each field contributes
its name and its base type. -/
def toFields (s : BState) : Nat → List Nat → Option (List (String × Layout.D4Type))
  | 0, _ => none
  | _ + 1, [] => some []
  | fuel + 1, fnid :: rest =>
      match lookupNode s fnid with
      | none => none
      | some f =>
          match f.basetype with
          | none => none
          | some b =>
              match toD4Type s fuel b, toFields s fuel rest with
              | some t, some ts => some ((f.name, t) :: ts)
              | _, _ => none

end

/-- `getDimsizes` of `d4meta.c`: the declared sizes of a variable's
dimensions in order.  (A dangling dimension reference would be undefined
behaviour in C; it is modelled as size 0 and never exercised.) -/
def getDimsizes (s : BState) (v : NodeRec) : List Nat :=
  v.dims.map (fun dnid =>
    (((lookupNode s dnid).map (fun d => d.dimSize))).getD 0)

/-- `getDimrefs` of `d4meta.c`: the destination-store dimension ids of a
variable's dimensions in order. -/
def getDimrefs (s : BState) (v : NodeRec) : List Nat :=
  v.dims.map (fun dnid => getId s dnid)

/-- The field-insertion loop of `buildCompound` (Step 3): one
`nc_insert_compound` per scalar member and one `nc_insert_array_compound`
per array member, at the offsets computed by `computeOffsets`. -/
def insertFieldsLoop :
    BState → Nat → Nat → List Nat → List Nat → Except Crash (Int × BState)
  | s, _, _, [], _ => .ok (NC_NOERR, s)
  | s, gid, tid, fnid :: rest, offs =>
      match lookupNode s fnid with
      | none => .error .nullDeref
      | some f =>
          match f.basetype with
          | none => .error .nullDeref
          | some b =>
              let offset := offs.headD 0
              let ftid := getId s b
              let rank := f.dims.length
              if rank = 0 then
                let r := nc_insert_compound gid tid f.name offset ftid s.store
                let s1 := { s with store := r.2 }
                if r.1 ≠ NC_NOERR then .ok (r.1, s1)
                else insertFieldsLoop s1 gid tid rest (offs.drop 1)
              else
                let r := nc_insert_array_compound gid tid f.name offset ftid rank
                  (getDimsizes s f) s.store
                let s1 := { s with store := r.2 }
                if r.1 ≠ NC_NOERR then .ok (r.1, s1)
                else insertFieldsLoop s1 gid tid rest (offs.drop 1)

/-- `buildCompound` of `d4meta.c`: compute the field offsets (Step 1, via
the Layout model of `computeOffsets` on the converted field types), define
the compound type with the accumulated total as its size (Step 2; the C
code reads the total back from `cmpdtype->meta.offset`), then insert the
fields (Step 3). -/
def buildCompound (s : BState) (cmpdNid : Nat) (gid : Nat) (name : Option String) :
    Except Crash (Int × BState) :=
  match lookupNode s cmpdNid with
  | none => .error .nullDeref
  | some cmpd =>
      match toFields s (bigFuel s) cmpd.vars with
      | none => .error .nullDeref
      | some fts =>
          let off := Layout.computeOffsetsFrom 0 fts
          let r := nc_def_compound gid off.2 name s.store
          let s1 := { s with store := r.2.2 }
          if r.1 ≠ NC_NOERR then .ok (r.1, s1)
          else
            let s2 := setId s1 cmpdNid r.2.1
            insertFieldsLoop s2 gid r.2.1 cmpd.vars off.1

/-- Step 1 of `buildStructureType`: the resolved (defining group node,
type name) — the alternate identity when present, otherwise the owning
group and the FQN-synthesized name with the "_t" suffix. -/
def structNameGroup (s : BState) (n : NodeRec) (gnid : Nat) :
    Option (Nat × String) :=
  match n.origName with
  | some onm => n.origGroup.map (fun og => (og, onm))
  | none => (getFieldFQN s n.nid "_t").map (fun fqn => (gnid, fqn))

/-- `buildStructureType` of `d4meta.c`: resolve name and group (Step 1),
probe for an existing definition and adopt its id if found (Step 2),
otherwise define the compound. -/
def buildStructureType (s : BState) (nid : Nat) : Except Crash (Int × BState) :=
  match lookupNode s nid with
  | none => .error .nullDeref
  | some structtype =>
      match groupFor s (s.nodes.length + 1) nid with
      | none => .error .nullDeref
      | some gnid =>
          match structNameGroup s structtype gnid with
          | none => .error .nullDeref
          | some gn =>
              let gid := getId s gn.1
              let pr := nc_inq_typeid gid gn.2 s.store
              let s1 := { s with store := pr.2.2 }
              if pr.1 = NC_NOERR then .ok (NC_NOERR, setId s1 nid pr.2.1)
              else buildCompound s1 nid gid (some gn.2)

/-- Step 1 of `buildSequenceType`: the resolved (defining group node, vlen
wrapper name, inner compound name).  On the alternate-identity path the
inner compound name stays NULL, as in the C code. -/
def seqNameGroup (s : BState) (n : NodeRec) (gnid : Nat) :
    Option (Nat × String × Option String) :=
  match n.origName with
  | some onm => n.origGroup.map (fun og => (og, onm, none))
  | none =>
      match getFieldFQN s n.nid "_t", getFieldFQN s n.nid "_cmpd_t" with
      | some vn, some cn => some (gnid, vn, some cn)
      | _, _ => none

/-- `buildSequenceType` of `d4meta.c`: resolve names (Step 1), probe and
adopt (Step 2), decide between a direct vlen and an inner compound
(Step 4: the `UCARTAGVLEN` marker is present and there is exactly one
field), obtain the element type (Step 5), then define the vlen wrapper.
The local `field1` is declared `NCD4node* field1 = NULL;` and never
assigned, so the direct-vlen branch dereferences a null pointer. -/
def buildSequenceType (s : BState) (nid : Nat) : Except Crash (Int × BState) :=
  match lookupNode s nid with
  | none => .error .nullDeref
  | some seqtype =>
      match groupFor s (s.nodes.length + 1) nid with
      | none => .error .nullDeref
      | some gnid =>
          let field1 : Option Nat := none
          match seqNameGroup s seqtype gnid with
          | none => .error .nullDeref
          | some res =>
              let gid := getId s res.1
              let vlentypename := res.2.1
              let cmpdtypename := res.2.2
              let pr := nc_inq_typeid gid vlentypename s.store
              let s1 := { s with store := pr.2.2 }
              if pr.1 = NC_NOERR then .ok (NC_NOERR, setId s1 nid pr.2.1)
              else
                let ucar := NCD4_findAttr s1 seqtype UCARTAGVLEN
                let usevlen := ucar.isSome ∧ seqtype.vars.length = 1
                if usevlen then
                  match field1 with
                  | none => .error .nullDeref
                  | some f1nid =>
                      match (lookupNode s1 f1nid).bind (fun f1 => f1.basetype) with
                      | none => .error .nullDeref
                      | some b =>
                          let tid := getId s1 b
                          let r := nc_def_vlen gid vlentypename tid s1.store
                          let s2 := { s1 with store := r.2.2 }
                          if r.1 ≠ NC_NOERR then .ok (r.1, s2)
                          else .ok (NC_NOERR, setId s2 nid r.2.1)
                else
                  match buildCompound s1 nid gid cmpdtypename with
                  | .error c => .error c
                  | .ok rs =>
                      if rs.1 ≠ NC_NOERR then .ok (rs.1, rs.2)
                      else
                        let s2 := rs.2
                        let tid := getId s2 nid
                        let s3 := { s2 with cmpdids := (nid, tid) :: s2.cmpdids }
                        let r := nc_def_vlen gid vlentypename tid s3.store
                        let s4 := { s3 with store := r.2.2 }
                        if r.1 ≠ NC_NOERR then .ok (r.1, s4)
                        else .ok (NC_NOERR, setId s4 nid r.2.1)

/-- `buildDimension` of `d4meta.c`. -/
def buildDimension (s : BState) (nid : Nat) : Except Crash (Int × BState) :=
  match lookupNode s nid with
  | none => .error .nullDeref
  | some dim =>
      match groupFor s (s.nodes.length + 1) nid with
      | none => .error .nullDeref
      | some gnid =>
          let r := nc_def_dim (getId s gnid) dim.name dim.dimSize s.store
          let s1 := { s with store := r.2.2 }
          if r.1 ≠ NC_NOERR then .ok (r.1, s1)
          else .ok (NC_NOERR, setId s1 nid r.2.1)

/-- The constant-insertion loop of `buildEnumeration`. -/
def insertEnumsLoop :
    BState → Nat → Nat → List Nat → Except Crash (Int × BState)
  | s, _, _, [] => .ok (NC_NOERR, s)
  | s, gid, enid, ecnid :: rest =>
      match lookupNode s ecnid with
      | none => .error .nullDeref
      | some ec =>
          let r := nc_insert_enum gid enid ec.name ec.ecvalue s.store
          let s1 := { s with store := r.2 }
          if r.1 ≠ NC_NOERR then .ok (r.1, s1)
          else insertEnumsLoop s1 gid enid rest

/-- `buildEnumeration` of `d4meta.c`: define the enum type in its owning
group, then insert each constant in declared order. -/
def buildEnumeration (s : BState) (nid : Nat) : Except Crash (Int × BState) :=
  match lookupNode s nid with
  | none => .error .nullDeref
  | some en =>
      match groupFor s (s.nodes.length + 1) nid with
      | none => .error .nullDeref
      | some gnid =>
          match en.basetype with
          | none => .error .nullDeref
          | some b =>
              let gid := getId s gnid
              let r := nc_def_enum gid (getId s b) en.name s.store
              let s1 := { s with store := r.2.2 }
              if r.1 ≠ NC_NOERR then .ok (r.1, s1)
              else
                let s2 := setId s1 nid r.2.1
                insertEnumsLoop s2 gid r.2.1 en.econsts

/-- `buildOpaque` of `d4meta.c`: a fixed-size opaque (size > 0) is defined
under its own name — or under its alternate identity when the node carries
one; a zero-size opaque issues `nc_def_vlen(builder->root->meta.id,
"_bytestring", NC_UBYTE, &op->meta.id)` — unconditionally, for every such
node. -/
def buildOpaque (s : BState) (nid : Nat) : Except Crash (Int × BState) :=
  match lookupNode s nid with
  | none => .error .nullDeref
  | some op =>
      match groupFor s (s.nodes.length + 1) nid with
      | none => .error .nullDeref
      | some gnid =>
          if 0 < op.opaqueSize then
            let ng : Option (Nat × String) :=
              match op.origName with
              | some onm => op.origGroup.map (fun og => (og, onm))
              | none => some (gnid, op.name)
            match ng with
            | none => .error .nullDeref
            | some gn =>
                let r := nc_def_opaque (getId s gn.1) op.opaqueSize gn.2 s.store
                let s1 := { s with store := r.2.2 }
                if r.1 ≠ NC_NOERR then .ok (r.1, s1)
                else .ok (NC_NOERR, setId s1 nid r.2.1)
          else
            let r := nc_def_vlen (getId s s.root) "_bytestring" NC_UBYTE s.store
            let s1 := { s with store := r.2.2 }
            if r.1 ≠ NC_NOERR then .ok (r.1, s1)
            else .ok (NC_NOERR, setId s1 nid r.2.1)

/-- Conversion of an attribute's base type node into the view
`compileAttrValues` takes of it: an enumeration with its underlying base's
`meta.id` and its constants, an atomic type node by its `meta.id`, or —
for any base that is not a type node — a stand-in whose id fails the
`meta.id ≤ NC_MAX_ATOMIC_TYPE` check, matching the `!ISTYPE(...)` test. -/
def toABase (s : BState) (bnid : Nat) : Option AttrEnc.ABase :=
  match lookupNode s bnid with
  | none => none
  | some b =>
      if b.subsort = NC_ENUM then
        match b.basetype with
        | none => none
        | some ub =>
            let consts := b.econsts.map (fun ecnid =>
              match lookupNode s ecnid with
              | some ec => (⟨ec.name, ec.ecvalue⟩ : AttrEnc.EConst)
              | none => ⟨"", 0⟩)
            some (.enumB ⟨getId s ub, consts⟩)
      else if b.sort = .type then
        if getId s bnid ≤ NC_MAX_ATOMIC_TYPE then some (.atomic (getId s bnid))
        else some (.nonPrim (getId s bnid))
      else some (.nonPrim (NC_MAX_ATOMIC_TYPE + 1))

/-- The per-attribute loop of `buildAttributes`: skip reserved attributes
(names under the `UCARTAGNC4` prefix), compile the textual values into a
packed buffer (`compileAttrValues`; a failure is wrapped into `NC_ERANGE`
by the enclosing `FAIL`), and issue one bulk `nc_put_att` per surviving
attribute (`NC_GLOBAL` as the variable id when the owner is a group). -/
def buildAttributesLoop (vgNid : Nat) (isGroup : Bool) :
    BState → List Nat → Except Crash (Int × BState)
  | s, [] => .ok (NC_NOERR, s)
  | s, anid :: rest =>
      match lookupNode s anid with
      | none => .error .nullDeref
      | some attr =>
          if UCARTAGNC4.isPrefixOf attr.name then
            buildAttributesLoop vgNid isGroup s rest
          else
            let varid : Int := if isGroup then NC_GLOBAL else (getId s vgNid : Int)
            match attr.basetype with
            | none => .error .nullDeref
            | some bnid =>
                match toABase s bnid with
                | none => .error .nullDeref
                | some abase =>
                    let count := attr.attrValues.length
                    let cm := AttrEnc.compileAttrValues abase attr.attrValues
                    if cm.1 ≠ NC_NOERR then .ok (NC_ERANGE, s)
                    else
                      match groupFor s (s.nodes.length + 1) vgNid with
                      | none => .error .nullDeref
                      | some gnid =>
                          let r := nc_put_att (getId s gnid) varid attr.name
                            (getId s bnid) count (.bytes (cm.2.getD [])) s.store
                          let s1 := { s with store := r.2 }
                          if r.1 ≠ NC_NOERR then .ok (r.1, s1)
                          else buildAttributesLoop vgNid isGroup s1 rest

/-- `buildAttributes` of `d4meta.c`. -/
def buildAttributes (s : BState) (nid : Nat) : Except Crash (Int × BState) :=
  match lookupNode s nid with
  | none => .error .nullDeref
  | some vg =>
      buildAttributesLoop nid (vg.sort = .group) s vg.attributes

/-- The fqn collection of the inner loop of `buildMaps`: the fully
qualified names of all map-referenced variables, in declared map order. -/
def mapFQNs (s : BState) : List Nat → Option (List String)
  | [] => some []
  | m :: rest =>
      match NCD4_makeFQN s m, mapFQNs s rest with
      | some f, some fs => some (f :: fs)
      | _, _ => none

/-- The outer loop of `buildMaps`.  In the C code the outer
`for(i=0;i<count;i++)` SHARES its induction variable with the inner
collection loop `for(i=0;i<count;i++)`, which leaves `i == count` on exit;
the outer increment then makes `i == count + 1`, so the body runs at most
once and issues a single `nc_put_att` carrying all `count` names.  The
loop is modelled with explicit fuel (`count + 2` at the entry point, always
sufficient). -/
def buildMapsLoop (varNid : Nat) (maps : List Nat) :
    BState → Nat → Nat → Except Crash (Int × BState)
  | s, _, 0 => .ok (NC_NOERR, s)
  | s, i, fuel + 1 =>
      let count := maps.length
      if i < count then
        match mapFQNs s maps with
        | none => .error .nullDeref
        | some memory =>
            match groupFor s (s.nodes.length + 1) varNid with
            | none => .error .nullDeref
            | some gnid =>
                let r := nc_put_att (getId s gnid) (getId s varNid : Int) NC4TAGMAPS
                  NC_STRING count (.strings memory) s.store
                let s1 := { s with store := r.2 }
                if r.1 ≠ NC_NOERR then .ok (r.1, s1)
                else buildMapsLoop varNid maps s1 (count + 1) fuel
      else .ok (NC_NOERR, s)

/-- `buildMaps` of `d4meta.c`. -/
def buildMaps (s : BState) (nid : Nat) : Except Crash (Int × BState) :=
  match lookupNode s nid with
  | none => .error .nullDeref
  | some var =>
      buildMapsLoop nid var.maps s 0 (var.maps.length + 2)

/-- `buildMetaData` of `d4meta.c`: attributes, then map attributes. -/
def buildMetaData (s : BState) (nid : Nat) : Except Crash (Int × BState) :=
  match buildAttributes s nid with
  | .error c => .error c
  | .ok ra =>
      if ra.1 ≠ NC_NOERR then .ok (ra.1, ra.2)
      else buildMaps ra.2 nid

/-- `buildAtomicVar` of `d4meta.c`: define the variable in its owning group
with its base type id and resolved dimension ids, then build its metadata. -/
def buildAtomicVar (s : BState) (nid : Nat) : Except Crash (Int × BState) :=
  match lookupNode s nid with
  | none => .error .nullDeref
  | some var =>
      match groupFor s (s.nodes.length + 1) nid with
      | none => .error .nullDeref
      | some gnid =>
          match var.basetype with
          | none => .error .nullDeref
          | some b =>
              let dimids := getDimrefs s var
              let r := nc_def_var (getId s gnid) var.name (getId s b) dimids s.store
              let s1 := { s with store := r.2.2 }
              if r.1 ≠ NC_NOERR then .ok (r.1, s1)
              else buildMetaData (setId s1 nid r.2.1) nid

/-- `buildStructure` of `d4meta.c` (a structure-typed variable): same shape
as the atomic case — define the variable with the structure type's id, then
build its metadata. -/
def buildStructure (s : BState) (nid : Nat) : Except Crash (Int × BState) :=
  match lookupNode s nid with
  | none => .error .nullDeref
  | some structvar =>
      match groupFor s (s.nodes.length + 1) nid with
      | none => .error .nullDeref
      | some gnid =>
          match structvar.basetype with
          | none => .error .nullDeref
          | some b =>
              let dimids := getDimrefs s structvar
              let r := nc_def_var (getId s gnid) structvar.name (getId s b) dimids s.store
              let s1 := { s with store := r.2.2 }
              if r.1 ≠ NC_NOERR then .ok (r.1, s1)
              else buildMetaData (setId s1 nid r.2.1) nid

/-- `buildSequence` of `d4meta.c` (a sequence-typed variable). -/
def buildSequence (s : BState) (nid : Nat) : Except Crash (Int × BState) :=
  match lookupNode s nid with
  | none => .error .nullDeref
  | some seq =>
      match groupFor s (s.nodes.length + 1) nid with
      | none => .error .nullDeref
      | some gnid =>
          match seq.basetype with
          | none => .error .nullDeref
          | some b =>
              let dimids := getDimrefs s seq
              let r := nc_def_var (getId s gnid) seq.name (getId s b) dimids s.store
              let s1 := { s with store := r.2.2 }
              if r.1 ≠ NC_NOERR then .ok (r.1, s1)
              else buildMetaData (setId s1 nid r.2.1) nid

/-- `buildVariable` of `d4meta.c`: dispatch on the variable's subsort. -/
def buildVariable (s : BState) (nid : Nat) : Except Crash (Int × BState) :=
  match lookupNode s nid with
  | none => .error .nullDeref
  | some var =>
      if var.subsort = NC_STRUCT then buildStructure s nid
      else if var.subsort = NC_SEQ then buildSequence s nid
      else buildAtomicVar s nid

/-- `buildGroups` of `d4meta.c`: define each subgroup under its
already-defined parent (the dataset root reuses the caller-supplied ncid),
recursing into children before moving to the next sibling.  The pair
argument is (parent node id, remaining children); the fuel is decremented
on every step and is ample at the entry point. -/
def buildGroupsGo : Nat → BState → Nat × List Nat → Except Crash (Int × BState)
  | 0, _, _ => .error .nullDeref
  | _ + 1, s, (_, []) => .ok (NC_NOERR, s)
  | fuel + 1, s, (pnid, gnid :: rest) =>
      match lookupNode s gnid with
      | none => .error .nullDeref
      | some g =>
          let step : Int × BState :=
            if g.isdataset then (NC_NOERR, setId s gnid s.ncid)
            else
              let r := nc_def_grp (getId s pnid) g.name s.store
              let s1 := { s with store := r.2.2 }
              if r.1 ≠ NC_NOERR then (r.1, s1)
              else (NC_NOERR, setId s1 gnid r.2.1)
          if step.1 ≠ NC_NOERR then .ok (step.1, step.2)
          else
            match buildGroupsGo fuel step.2 (gnid, g.groups) with
            | .error c => .error c
            | .ok rr =>
                if rr.1 ≠ NC_NOERR then .ok (rr.1, rr.2)
                else buildGroupsGo fuel rr.2 (pnid, rest)

/-- `buildGroups` of `d4meta.c`, at the root. -/
def buildGroups (s : BState) (rootNid : Nat) : Except Crash (Int × BState) :=
  match lookupNode s rootNid with
  | none => .error .nullDeref
  | some root => buildGroupsGo (bigFuel s) s (rootNid, root.groups)

/-- `ISTOPLEVEL(var)` of the DAP4 headers: the variable's container is the
(a) group, not an enclosing compound type. -/
def isTopLevel (s : BState) (n : NodeRec) : Bool :=
  match n.container with
  | none => true
  | some c =>
      match lookupNode s c with
      | some p => p.sort = .group
      | none => false

/-- The first walk of `build`: dimensions and named types, in `allnodes`
order, each step checked (`NCCHECK`) so that the first failure aborts the
walk with its status. -/
def buildNodesLoop : BState → List NodeRec → Except Crash (Int × BState)
  | s, [] => .ok (NC_NOERR, s)
  | s, x :: rest =>
      let step : Except Crash (Int × BState) :=
        if x.sort = .dim then buildDimension s x.nid
        else if x.sort = .type then
          if x.subsort = NC_ENUM then buildEnumeration s x.nid
          else if x.subsort = NC_OPAQUE then buildOpaque s x.nid
          else if x.subsort = NC_STRUCT then buildStructureType s x.nid
          else if x.subsort = NC_SEQ then buildSequenceType s x.nid
          else .ok (NC_NOERR, s)
        else .ok (NC_NOERR, s)
      match step with
      | .error c => .error c
      | .ok r =>
          if r.1 ≠ NC_NOERR then .ok (r.1, r.2)
          else buildNodesLoop r.2 rest

/-- The final walk of `build`: the top-level variables.  The C statement is
`if(ISVAR(x->sort) && ISTOPLEVEL(x)) buildVariable(builder,x);` — the
status returned by `buildVariable` is NOT assigned to `ret` and NOT
checked: the walk continues with the next variable regardless, and the
state mutations (store calls, build-result slots) of the failed call are
kept. -/
def buildVarsLoop : BState → List NodeRec → Except Crash (Int × BState)
  | s, [] => .ok (NC_NOERR, s)
  | s, x :: rest =>
      if x.sort = .var ∧ isTopLevel s x then
        match buildVariable s x.nid with
        | .error c => .error c
        | .ok r => buildVarsLoop r.2 rest
      else buildVarsLoop s rest

/-- `build` of `d4meta.c`: the group tree first, then dimensions and types
in `allnodes` order (each checked), then the top-level variables (statuses
discarded, see `buildVarsLoop`). -/
def build (s : BState) : Except Crash (Int × BState) :=
  match buildGroups s s.root with
  | .error c => .error c
  | .ok rg =>
      if rg.1 ≠ NC_NOERR then .ok (rg.1, rg.2)
      else
        match buildNodesLoop rg.2 rg.2.nodes with
        | .error c => .error c
        | .ok rn =>
            if rn.1 ≠ NC_NOERR then .ok (rn.1, rn.2)
            else buildVarsLoop rn.2 rn.2.nodes

/-- The atomic fix-up loop of `NCD4_metabuild`: every type node whose
subsort is at most `NC_MAX_ATOMIC_TYPE` gets `meta.id = subsort`. -/
def atomicFixup (s : BState) : BState :=
  s.nodes.foldl
    (fun acc n =>
      if n.sort = .type ∧ n.subsort ≤ NC_MAX_ATOMIC_TYPE then setId acc n.nid n.subsort
      else acc)
    s

/-- `NCD4_metabuild` of `d4meta.c`: record the caller's ncid, give the root
group that id, fix up the atomic types, and run the build pass.  The
topological sort (`NCD4_toposort`, in `d4toposort.c` outside the core
source) reorders `allnodes` in place; the model takes `s.nodes` as already
being in the order the build pass consumes. -/
def NCD4_metabuild (s : BState) (ncid : Nat) : Except Crash (Int × BState) :=
  let s1 := { s with ncid := ncid }
  let s2 := setId s1 s1.root ncid
  build (atomicFixup s2)

/-!
### Concrete schema instances evaluated by the theorems
-/

/-- A schema with a root group and two top-level atomic variables, where the
store's `nc_def_var` rejects the first variable (an injected opaque store
failure). -/
def schemaTwoVars : BState :=
  { nodes :=
      [ { nid := 0, sort := .group, name := "/", isdataset := true },
        { nid := 10, sort := .type, subsort := NC_INT, name := "Int32" },
        { nid := 1, sort := .var, subsort := NC_INT, name := "v1",
          container := some 0, basetype := some 10 },
        { nid := 2, sort := .var, subsort := NC_INT, name := "v2",
          container := some 0, basetype := some 10 } ],
    root := 0,
    store := { failDefVar := ["v1"] } }

/-- A schema with two zero-size (variable-length) opaque type nodes. -/
def schemaTwoZeroOpaques : BState :=
  { nodes :=
      [ { nid := 0, sort := .group, name := "/", isdataset := true },
        { nid := 3, sort := .type, subsort := NC_OPAQUE, name := "op1",
          container := some 0, opaqueSize := 0 },
        { nid := 4, sort := .type, subsort := NC_OPAQUE, name := "op2",
          container := some 0, opaqueSize := 0 } ],
    root := 0 }

/-- A schema with a sequence type node that carries the direct-vlen marker
attribute and has exactly one row field. -/
def schemaMarkedSeq : BState :=
  { nodes :=
      [ { nid := 0, sort := .group, name := "/", isdataset := true },
        { nid := 10, sort := .type, subsort := NC_INT, name := "Int32" },
        { nid := 20, sort := .var, subsort := NC_INT, name := "f",
          container := some 21, basetype := some 10 },
        { nid := 21, sort := .type, subsort := NC_SEQ, name := "seq1",
          container := some 0, vars := [20], attributes := [30] },
        { nid := 30, sort := .attr, name := UCARTAGVLEN, container := some 21 } ],
    root := 0 }

/-- The anonymous two-field structure type node of `schemaComposites`. -/
def stNode : NodeRec :=
  { nid := 5, sort := .type, subsort := NC_STRUCT, name := "st",
    container := some 0, vars := [6, 7] }

/-- The anonymous two-field sequence type node of `schemaComposites`
(no direct-vlen marker). -/
def sqNode : NodeRec :=
  { nid := 8, sort := .type, subsort := NC_SEQ, name := "sq",
    container := some 0, vars := [6, 7] }

/-- The converted field list of the two-int-field composite types of
`schemaComposites`. -/
def xyFields : List (String × Layout.D4Type) :=
  [("x", Layout.D4Type.atomic NC_INT), ("y", Layout.D4Type.atomic NC_INT)]

/-- A builder state (as `NCD4_metabuild` seeds it: root id and atomic
fix-up already applied) holding an anonymous two-field structure type and
an anonymous two-field sequence type without the direct-vlen marker. -/
def schemaComposites : BState :=
  { nodes :=
      [ { nid := 0, sort := .group, name := "/", isdataset := true },
        { nid := 10, sort := .type, subsort := NC_INT, name := "Int32" },
        { nid := 6, sort := .var, subsort := NC_INT, name := "x",
          container := some 5, basetype := some 10 },
        { nid := 7, sort := .var, subsort := NC_INT, name := "y",
          container := some 5, basetype := some 10 },
        stNode, sqNode ],
    ids := [(0, 77), (10, NC_INT)],
    root := 0 }

/-- `schemaComposites` with a store that already holds type definitions
named "st_t" and "sq_t" in the root group, as an earlier visit through
another containment path would have left behind. -/
def schemaCompositesPre : BState :=
  { schemaComposites with
    store := { nextId := 102,
               typesByName := [(77, "st_t", 100), (77, "sq_t", 101)] } }

/-- A builder state (root id seeded, variable already defined with id 55)
holding a variable with two map references, to variables A and B. -/
def schemaMapped : BState :=
  { nodes :=
      [ { nid := 0, sort := .group, name := "/", isdataset := true },
        { nid := 2, sort := .var, subsort := NC_INT, name := "A",
          container := some 0 },
        { nid := 3, sort := .var, subsort := NC_INT, name := "B",
          container := some 0 },
        { nid := 1, sort := .var, subsort := NC_INT, name := "v",
          container := some 0, maps := [2, 3] } ],
    ids := [(0, 77), (1, 55)],
    root := 0 }

end Build

/-!
# Theorems
-/

namespace Layout

theorem computeOffsetsFrom_cons (off : Nat) (n : String) (t : D4Type)
    (rest : List (String × D4Type)) :
    computeOffsetsFrom off ((n, t) :: rest) =
      (off :: (computeOffsetsFrom (off + fieldWidth t) rest).1,
       (computeOffsetsFrom (off + fieldWidth t) rest).2) := by
  cases t <;> simp [computeOffsetsFrom, fieldWidth]

theorem computeOffsetsFrom_spec (fields : List (String × D4Type)) (off : Nat) :
    (computeOffsetsFrom off fields).1 =
      (List.range fields.length).map
        (fun i => off + (((fields.take i).map (fun f => fieldWidth f.2)).sum)) ∧
    (computeOffsetsFrom off fields).2 =
      off + (fields.map (fun f => fieldWidth f.2)).sum := by
  induction fields generalizing off with
  | nil => simp [computeOffsetsFrom]
  | cons hd tl ih =>
      obtain ⟨n, t⟩ := hd
      rw [computeOffsetsFrom_cons]
      obtain ⟨ih1, ih2⟩ := ih (off + fieldWidth t)
      refine ⟨?_, by simpa [Nat.add_assoc] using ih2⟩
      simp only [List.length_cons, List.range_succ_eq_map, List.map_cons, List.map_map, ih1]
      refine List.cons_eq_cons.mpr ⟨by simp, ?_⟩
      apply List.map_congr_left
      intro i _
      simp [Nat.add_assoc]

theorem computeOffsetsFrom_length (fields : List (String × D4Type)) (off : Nat) :
    (computeOffsetsFrom off fields).1.length = fields.length := by
  rw [(computeOffsetsFrom_spec fields off).1]
  simp

end Layout

/-- C2: for a structure type with fields of declared widths w₁…wₙ in declared
order, the Offset Calculator assigns field i the offset Σ_{j<i} wⱼ (starting
at 0, no padding) and records the structure's total size as Σ wⱼ; a nested
structure field contributes its own recursively computed total size, and a
sequence field contributes the fixed size of the variable-length handle,
independent of its element type. -/
theorem offsetCalculator_packed_layout (fields : List (String × Layout.D4Type)) :
    (Layout.computeOffsetsFrom 0 fields).1.length = fields.length ∧
    (∀ i, i < fields.length →
      ((Layout.computeOffsetsFrom 0 fields).1)[i]? =
        some (((fields.take i).map (fun f => Layout.fieldWidth f.2)).sum)) ∧
    (Layout.computeOffsetsFrom 0 fields).2 =
      (fields.map (fun f => Layout.fieldWidth f.2)).sum ∧
    Layout.computeTypeSize (.structT fields) =
      (fields.map (fun f => Layout.fieldWidth f.2)).sum ∧
    (∀ fs, Layout.fieldWidth (.structT fs) =
      Layout.computeTypeSize (.structT fs)) ∧
    (∀ fs fs', Layout.fieldWidth (.seqT fs) = sizeof_nc_vlen_t ∧
      Layout.fieldWidth (.seqT fs) = Layout.fieldWidth (.seqT fs')) := by
  obtain ⟨h1, h2⟩ := Layout.computeOffsetsFrom_spec fields 0
  refine ⟨Layout.computeOffsetsFrom_length fields 0, ?_, by simpa using h2,
    by simpa [Layout.computeTypeSize] using h2, fun fs => rfl, fun fs fs' => ⟨rfl, rfl⟩⟩
  intro i hi
  rw [h1]
  rw [List.getElem?_map, List.getElem?_range hi]
  simp

/-- Witness for `offsetCalculator_packed_layout`: the two-field structure of
Scenario B (`x`, `y` both 32-bit ints) has offsets {x ↦ 0, y ↦ 4} and total
size 8. -/
theorem offsetCalculator_packed_layout_witness :
    ((Layout.computeOffsetsFrom 0
        [("x", Layout.D4Type.atomic NC_INT), ("y", Layout.D4Type.atomic NC_INT)]).1)[0]? =
      some 0 ∧
    ((Layout.computeOffsetsFrom 0
        [("x", Layout.D4Type.atomic NC_INT), ("y", Layout.D4Type.atomic NC_INT)]).1)[1]? =
      some 4 ∧
    (Layout.computeOffsetsFrom 0
        [("x", Layout.D4Type.atomic NC_INT), ("y", Layout.D4Type.atomic NC_INT)]).2 = 8 := by
  have h := offsetCalculator_packed_layout
    [("x", Layout.D4Type.atomic NC_INT), ("y", Layout.D4Type.atomic NC_INT)]
  refine ⟨?_, ?_, ?_⟩
  · have := h.2.1 0 (by decide)
    simpa using this
  · have := h.2.1 1 (by decide)
    simpa [Layout.fieldWidth, Layout.computeTypeSize, NCD4_typesize, NC_INT, NC_BYTE,
      NC_CHAR, NC_UBYTE, NC_SHORT, NC_USHORT, NC_UINT, NC_FLOAT] using this
  · have := h.2.2.1
    simpa [Layout.fieldWidth, Layout.computeTypeSize, NCD4_typesize, NC_INT, NC_BYTE,
      NC_CHAR, NC_UBYTE, NC_SHORT, NC_USHORT, NC_UINT, NC_FLOAT] using this

/-- C10: for a structure field whose type is an enumeration, the size
function of the Offset Calculator returns the byte width of the
enumeration's underlying base type, so an enum field occupies exactly as
many bytes as its underlying integer type. -/
theorem computeTypeSize_enum_underlying :
    (∀ base, Layout.computeTypeSize (.enumT base) = Layout.computeTypeSize base) ∧
    (∀ tid, Layout.computeTypeSize (.enumT (.atomic tid)) = NCD4_typesize tid) ∧
    (∀ base, Layout.fieldWidth (.enumT base) = Layout.computeTypeSize base) := by
  exact ⟨fun base => rfl, fun tid => rfl, fun base => rfl⟩

/-- C1 (the code evaluated at the failing input): for a 32-bit-float
attribute with textual value "1.5", `compileAttrValues` packs the bytes of
the binary32 value 0x3FC00002 (≈ 1.50000024) — because the value narrowed by
`convertString`'s trailing `downConvert` is narrowed a second time by
`compileAttrValues`, re-reading the float-punned union bytes as a double —
whereas the value parsed from the text, narrowed once by the declared
truncating cast, is the binary32 1.5 = 0x3FC00000.  The attribute round-trip
stated by the claim therefore fails for the 32-bit float family. -/
theorem compileAttrValues_float_double_downconvert :
    AttrEnc.compileAttrValues (.atomic NC_FLOAT) ["1.5"] =
      (NC_NOERR, some [0x02, 0x00, 0xC0, 0x3F]) ∧
    AttrEnc.specNarrowedElement NC_FLOAT "1.5" = some [0x00, 0x00, 0xC0, 0x3F] ∧
    ([0x02, 0x00, 0xC0, 0x3F] : List Nat) ≠ [0x00, 0x00, 0xC0, 0x3F] ∧
    AttrEnc.compileAttrValues (.atomic NC_DOUBLE) ["1.5"] =
      (NC_NOERR, AttrEnc.specNarrowedElement NC_DOUBLE "1.5") ∧
    AttrEnc.compileAttrValues (.atomic NC_SHORT) ["-2"] =
      (NC_NOERR, AttrEnc.specNarrowedElement NC_SHORT "-2") := by
  exact ⟨rfl, rfl, by decide, rfl, rfl⟩

/-- The first element of a list satisfying a predicate, located by an index
all of whose predecessors fail the predicate, is what `List.find?`
returns. -/
theorem find_first_match {α : Type} (p : α → Bool) (l : List α) (i : Nat)
    (h : i < l.length) (hp : p (l.get ⟨i, h⟩) = true)
    (hbefore : ∀ j (hj : j < i), p (l.get ⟨j, Nat.lt_trans hj h⟩) = false) :
    l.find? p = some (l.get ⟨i, h⟩) := by
  induction l generalizing i with
  | nil => exact absurd h (by simp)
  | cons a t ih =>
      cases i with
      | zero =>
          simp only [List.get] at hp
          simp [List.find?_cons, hp]
      | succ k =>
          have ha : p a = false := hbefore 0 (Nat.succ_pos k)
          simp only [List.find?_cons, ha]
          exact ih k (Nat.lt_of_succ_lt_succ h) hp
            (fun j hj => hbefore (j + 1) (Nat.succ_lt_succ hj))

/-- C3: enumeration-typed attribute values resolve by (1) exact name match
against the declared constants in declared order; (2) failing that, a parse
of the text as a number of the underlying integer family and an exact value
match against the constants; (3) failing both — including when the text is
not a number at all — an error.  In particular, with constants
{("RED",0), ("GREEN",1)}, encoding "GREEN" produces the same bytes as
encoding "1", and encoding "BLUE" fails. -/
theorem decodeEconst_resolution :
    (∀ (en : AttrEnc.EnumInfo) (s : String) (i : Nat) (h : i < en.econsts.length),
      (en.econsts.get ⟨i, h⟩).name = s →
      (∀ j (hj : j < i), (en.econsts.get ⟨j, Nat.lt_trans hj h⟩).name ≠ s) →
      AttrEnc.decodeEconst en s = (NC_NOERR, some (en.econsts.get ⟨i, h⟩).value)) ∧
    (∀ (en : AttrEnc.EnumInfo) (s : String) (i : Nat) (h : i < en.econsts.length),
      (∀ ec ∈ en.econsts, ec.name ≠ s) →
      (AttrEnc.convertString AttrEnc.atomicsInit en.basetid s).1 = NC_NOERR →
      (en.econsts.get ⟨i, h⟩).value =
        AttrEnc.u64of (AttrEnc.convertString AttrEnc.atomicsInit en.basetid s).2 →
      (∀ j (hj : j < i), (en.econsts.get ⟨j, Nat.lt_trans hj h⟩).value ≠
        AttrEnc.u64of (AttrEnc.convertString AttrEnc.atomicsInit en.basetid s).2) →
      AttrEnc.decodeEconst en s = (NC_NOERR, some (en.econsts.get ⟨i, h⟩).value)) ∧
    (∀ (en : AttrEnc.EnumInfo) (s : String),
      (∀ ec ∈ en.econsts, ec.name ≠ s) →
      (AttrEnc.convertString AttrEnc.atomicsInit en.basetid s).1 ≠ NC_NOERR →
      AttrEnc.decodeEconst en s =
        ((AttrEnc.convertString AttrEnc.atomicsInit en.basetid s).1, none)) ∧
    (∀ (en : AttrEnc.EnumInfo) (s : String),
      (∀ ec ∈ en.econsts, ec.name ≠ s) →
      (AttrEnc.convertString AttrEnc.atomicsInit en.basetid s).1 = NC_NOERR →
      (∀ ec ∈ en.econsts, ec.value ≠
        AttrEnc.u64of (AttrEnc.convertString AttrEnc.atomicsInit en.basetid s).2) →
      AttrEnc.decodeEconst en s = (NC_EINVAL, none)) ∧
    (AttrEnc.compileAttrValues (.enumB AttrEnc.redGreenEnum) ["GREEN"] =
        AttrEnc.compileAttrValues (.enumB AttrEnc.redGreenEnum) ["1"] ∧
      AttrEnc.compileAttrValues (.enumB AttrEnc.redGreenEnum) ["GREEN"] =
        (NC_NOERR, some [1, 0, 0, 0]) ∧
      AttrEnc.compileAttrValues (.enumB AttrEnc.redGreenEnum) ["BLUE"] =
        (NC_ERANGE, none)) := by
  refine ⟨?_, ?_, ?_, ?_, rfl, rfl, rfl⟩
  · intro en s i h hname hfirst
    have hf : en.econsts.find? (fun ec => ec.name = s) = some (en.econsts.get ⟨i, h⟩) := by
      apply find_first_match
      · simpa using hname
      · intro j hj
        simpa using hfirst j hj
    simp [AttrEnc.decodeEconst, hf]
  · intro en s i h hnoname hok hval hfirst
    have hn : en.econsts.find? (fun ec => ec.name = s) = none := by
      rw [List.find?_eq_none]
      intro x hx
      simpa using hnoname x hx
    have hf : en.econsts.find?
        (fun ec => ec.value =
          AttrEnc.u64of (AttrEnc.convertString AttrEnc.atomicsInit en.basetid s).2) =
        some (en.econsts.get ⟨i, h⟩) := by
      apply find_first_match
      · simpa using hval
      · intro j hj
        simpa using hfirst j hj
    simp [AttrEnc.decodeEconst, hn, hok, hf]
  · intro en s hnoname hbad
    have hn : en.econsts.find? (fun ec => ec.name = s) = none := by
      rw [List.find?_eq_none]
      intro x hx
      simpa using hnoname x hx
    simp [AttrEnc.decodeEconst, hn, hbad]
  · intro en s hnoname hok hnoval
    have hn : en.econsts.find? (fun ec => ec.name = s) = none := by
      rw [List.find?_eq_none]
      intro x hx
      simpa using hnoname x hx
    have hv : en.econsts.find?
        (fun ec => ec.value =
          AttrEnc.u64of (AttrEnc.convertString AttrEnc.atomicsInit en.basetid s).2) =
        none := by
      rw [List.find?_eq_none]
      intro x hx
      simpa using hnoval x hx
    simp [AttrEnc.decodeEconst, hn, hok, hv]

/-- Witness for `decodeEconst_resolution`: in the {RED ↦ 0, GREEN ↦ 1}
enumeration, "GREEN" resolves by name to 1 (no earlier constant is named
"GREEN"), and "2" errors with NC_EINVAL (no constant has value 2). -/
theorem decodeEconst_resolution_witness :
    AttrEnc.decodeEconst AttrEnc.redGreenEnum "GREEN" = (NC_NOERR, some 1) ∧
    AttrEnc.decodeEconst AttrEnc.redGreenEnum "2" = (NC_EINVAL, none) := by
  constructor
  · have h := decodeEconst_resolution.1 AttrEnc.redGreenEnum "GREEN" 1 (by decide)
      (by decide)
      (by
        intro j hj
        have hj0 : j = 0 := by omega
        subst hj0
        simp [AttrEnc.redGreenEnum])
    simpa using h
  · exact decodeEconst_resolution.2.2.2.1 AttrEnc.redGreenEnum "2"
      (by intro ec hec; fin_cases hec <;> decide)
      (by decide)
      (by intro ec hec; fin_cases hec <;> decide)

namespace Fqn

theorem escapeList_eq (l : List Char) :
    escapeList l =
      (l.map (fun c =>
        if c = '\\' ∨ c = '/' ∨ c = '.' ∨ c = '@' then ['\\', '\\'] else [c])).flatten := by
  induction l with
  | nil => rfl
  | cons c r ih => simp [escapeList, escapeChar, ih]

theorem backslashEscape_eq_spec (s : String) :
    backslashEscape s = specEscapeBackslashes s := by
  simp [backslashEscape, specEscapeBackslashes, escapeList_eq]

theorem intercalate_go_spec (l : List String) :
    ∀ acc, String.intercalate.go acc "." l = acc ++ dotPrefixJoin l := by
  induction l with
  | nil =>
      intro acc
      simp [String.intercalate.go, dotPrefixJoin]
  | cons a as ih =>
      intro acc
      simp only [String.intercalate.go, dotPrefixJoin, ih]
      simp [String.append_assoc]

theorem joinRest_eq (l : List String) :
    joinDots.joinRest l = dotPrefixJoin (l.map backslashEscape) := by
  induction l with
  | nil => rfl
  | cons a as ih => simp [joinDots.joinRest, dotPrefixJoin, ih]

theorem joinDots_eq_intercalate (l : List String) :
    joinDots l = String.intercalate "." (l.map backslashEscape) := by
  cases l with
  | nil => rfl
  | cons a as =>
      simp only [joinDots, joinRest_eq, List.map_cons, String.intercalate,
        intercalate_go_spec]

end Fqn

/-- C7 counterexample: the claim predicts that escaping doubles each of the
characters `\\ / . @` (so the escaped component of "a.b" would be "a..b" and
the final name "a..b_t"), but `getFieldFQN` of a node named "a.b" directly
inside a group produces "a\\\\b_t": the dot is replaced by two backslashes
and does not occur in the output at all. -/
theorem getFieldFQN_not_char_doubling :
    Fqn.getFieldFQN (.sub "a.b" (.grp "g")) "_t" = "a\\\\b_t" ∧
    Fqn.claimFQNDoubling (Fqn.upPath (.sub "a.b" (.grp "g"))) "_t" = "a..b_t" ∧
    ("a\\\\b_t" : String) ≠ "a..b_t" := by
  exact ⟨rfl, rfl, by decide⟩

/-- C7 as amended: the FQN Namer collects the names of the node and its
non-group ancestors in root-to-leaf order (stopping before, and excluding,
the first enclosing Group), escapes each component by replacing every
occurrence of backslash, slash, dot, and at-sign with the two-character
sequence `\\\\`, joins the escaped components with '.', and appends the
fixed suffix. -/
theorem getFieldFQN_escape_join :
    (∀ (ch : Fqn.Chain) (tail : String),
      Fqn.getFieldFQN ch tail =
        String.intercalate "." ((Fqn.upPath ch).map Fqn.specEscapeBackslashes) ++ tail) ∧
    (∀ s, Fqn.backslashEscape s = Fqn.specEscapeBackslashes s) ∧
    (∀ name parent, Fqn.upPath (.sub name parent) = Fqn.upPath parent ++ [name]) ∧
    (∀ g, Fqn.upPath (.grp g) = []) := by
  refine ⟨?_, Fqn.backslashEscape_eq_spec, fun name parent => rfl, fun g => rfl⟩
  intro ch tail
  have h := Fqn.joinDots_eq_intercalate (Fqn.upPath ch)
  simp only [Fqn.getFieldFQN, h]
  congr 1
  congr 1
  exact List.map_congr_left (fun x _ => Fqn.backslashEscape_eq_spec x)

/-- C4 (the code evaluated at the failing input): in a schema with two
top-level atomic variables where the store rejects the definition of the
first one, the build pass does NOT abort and does NOT propagate the error —
the status of `buildVariable` is discarded by the final walk of `build`
(`if(ISVAR(x->sort) && ISTOPLEVEL(x)) buildVariable(builder,x);`), the
second variable is still defined, and `NCD4_metabuild` returns
`NC_NOERR`. -/
theorem build_ignores_variable_failure :
    (Build.NCD4_metabuild Build.schemaTwoVars 7).map
        (fun r => (r.1, r.2.store.trace)) =
      .ok (NC_NOERR,
        [Build.Call.defVar 7 "v1" 4 [], Build.Call.defVar 7 "v2" 4 []]) ∧
    (Build.nc_def_var 7 "v1" 4 [] Build.schemaTwoVars.store).1 = NC_EINVAL ∧
    NC_EINVAL ≠ NC_NOERR := by
  exact ⟨rfl, rfl, by decide⟩

/-- C5 (the code evaluated at the failing input): for a schema with two
zero-size opaque type nodes, `buildOpaque` issues
`nc_def_vlen(root, "_bytestring", NC_UBYTE, ...)` once PER NODE — there is
no lazy single definition and no aliasing — so the store receives two
identical variable-length-type definition calls, the second of which fails
with `NC_ENAMEINUSE` and aborts the build. -/
theorem buildOpaque_bytestring_redefined :
    (Build.NCD4_metabuild Build.schemaTwoZeroOpaques 7).map
        (fun r => (r.1, r.2.store.trace)) =
      .ok (NC_ENAMEINUSE,
        [Build.Call.defVlen 7 "_bytestring" 7, Build.Call.defVlen 7 "_bytestring" 7]) ∧
    (Build.NCD4_metabuild Build.schemaTwoZeroOpaques 7).map
        (fun r => (r.2.store.trace.filter Build.Call.isTypeDef).length) = .ok 2 ∧
    (2 : Nat) ≠ 1 := by
  exact ⟨rfl, rfl, by decide⟩

/-- C6 (the code evaluated at the failing input): for a sequence type node
that carries the direct-vlen marker attribute and has exactly one row
field, `buildSequenceType` takes the `usevlen` branch and dereferences the
local `field1`, which is initialized to NULL and never assigned — the build
crashes before any wrapper type is defined, instead of defining the vlen
with the field's base type as its element type. -/
theorem buildSequenceType_vlen_null_deref :
    Build.NCD4_metabuild Build.schemaMarkedSeq 7 = .error .nullDeref ∧
    (Build.lookupNode Build.schemaMarkedSeq 21).map
        (fun n => ((Build.NCD4_findAttr Build.schemaMarkedSeq n Build.UCARTAGVLEN).isSome,
          n.vars.length)) = some (true, 1) := by
  exact ⟨rfl, rfl⟩

namespace Build

theorem getId_setId_same (s : BState) (nid v : Nat) :
    getId (setId s nid v) nid = v := by
  simp [getId, setId, List.find?_cons]

theorem lookupNode_congr (s s' : BState) (h : s'.nodes = s.nodes) (nid : Nat) :
    lookupNode s' nid = lookupNode s nid := by
  simp [lookupNode, h]

theorem getId_congr (s s' : BState) (h : s'.ids = s.ids) (nid : Nat) :
    getId s' nid = getId s nid := by
  simp [getId, h]

theorem lookupType_addCall (c : Call) (st : Store) (gid : Nat) (nm : String) :
    lookupType (addCall c st) gid nm = lookupType st gid nm := by
  simp [lookupType, addCall]

theorem filter_addCall_notTypeDef (c : Call) (st : Store)
    (h : c.isTypeDef = false) :
    (addCall c st).trace.filter Call.isTypeDef = st.trace.filter Call.isTypeDef := by
  simp [addCall, List.filter_append, h]

theorem filter_addCall_typeDef (c : Call) (st : Store)
    (h : c.isTypeDef = true) :
    (addCall c st).trace.filter Call.isTypeDef =
      st.trace.filter Call.isTypeDef ++ [c] := by
  simp [addCall, List.filter_append, h]

theorem lookupType_find_none (st : Store) (gid : Nat) (nm : String)
    (h : lookupType st gid nm = none) :
    st.typesByName.find? (fun q => q.1 = gid ∧ q.2.1 = nm) = none := by
  simpa [lookupType] using h

theorem lookupType_append_self (st : Store) (gid : Nat) (nm : String) (t : Nat)
    (h : lookupType st gid nm = none) :
    ((st.typesByName ++ [(gid, nm, t)]).find?
        (fun q => q.1 = gid ∧ q.2.1 = nm)).map (fun q => q.2.2) = some t := by
  rw [List.find?_append, lookupType_find_none st gid nm h]
  simp [List.find?_cons]

theorem lookupType_append_other (st : Store) (gid : Nat) (nm nm' : String) (t : Nat)
    (h : lookupType st gid nm' = none) (hne : nm ≠ nm') :
    ((st.typesByName ++ [(gid, nm, t)]).find?
        (fun q => q.1 = gid ∧ q.2.1 = nm')).map (fun q => q.2.2) = none := by
  rw [List.find?_append, lookupType_find_none st gid nm' h]
  simp [List.find?_cons, hne]

theorem toConv_congr (s s' : BState) (hn : s'.nodes = s.nodes) (hi : s'.ids = s.ids) :
    ∀ fuel, (∀ nid, toD4Type s' fuel nid = toD4Type s fuel nid) ∧
      (∀ l, toFields s' fuel l = toFields s fuel l) := by
  intro fuel
  induction fuel with
  | zero => exact ⟨fun nid => rfl, fun l => rfl⟩
  | succ f ih =>
      constructor
      · intro nid
        simp only [toD4Type, lookupNode_congr _ _ hn, getId_congr _ _ hi]
        cases h1 : lookupNode s nid with
        | none => rfl
        | some n => simp only [ih.2, ih.1]
      · intro l
        cases l with
        | nil => rfl
        | cons fnid rest =>
            simp only [toFields, lookupNode_congr _ _ hn]
            cases h1 : lookupNode s fnid with
            | none => rfl
            | some f => simp only [ih.1, ih.2]

theorem findAttr_congr (s s' : BState) (hn : s'.nodes = s.nodes)
    (node : NodeRec) (nm : String) :
    NCD4_findAttr s' node nm = NCD4_findAttr s node nm := by
  unfold NCD4_findAttr
  congr 1
  funext anid
  rw [lookupNode_congr s s' hn]

/-- The field-insertion loop succeeds whenever the fields converted for the
offset computation exist, and it issues no type-definition call, registers
no type, and leaves every build-result slot alone. -/
theorem insertFieldsLoop_ok (fields : List Nat) :
    ∀ (fuel : Nat) (fts : List (String × Layout.D4Type)) (s0 s : BState)
      (gid tid : Nat) (offs : List Nat),
      toFields s0 fuel fields = some fts →
      s.nodes = s0.nodes →
      ∃ s', insertFieldsLoop s gid tid fields offs = .ok (NC_NOERR, s') ∧
        s'.nodes = s.nodes ∧ s'.ids = s.ids ∧ s'.cmpdids = s.cmpdids ∧
        s'.root = s.root ∧ s'.ncid = s.ncid ∧
        s'.store.typesByName = s.store.typesByName ∧
        s'.store.nextId = s.store.nextId ∧
        s'.store.failDefVar = s.store.failDefVar ∧
        s'.store.trace.filter Call.isTypeDef =
          s.store.trace.filter Call.isTypeDef := by
  induction fields with
  | nil =>
      intro fuel fts s0 s gid tid offs htf hn
      exact ⟨s, rfl, rfl, rfl, rfl, rfl, rfl, rfl, rfl, rfl, rfl⟩
  | cons fnid rest ih =>
      intro fuel fts s0 s gid tid offs htf hn
      cases fuel with
      | zero => simp [toFields] at htf
      | succ m =>
          simp only [toFields] at htf
          cases h1 : lookupNode s0 fnid with
          | none => simp only [h1] at htf; exact Option.noConfusion htf
          | some f =>
              simp only [h1] at htf
              cases h2 : f.basetype with
              | none => simp only [h2] at htf; exact Option.noConfusion htf
              | some b =>
                  simp only [h2] at htf
                  cases h3 : toD4Type s0 m b with
                  | none => simp only [h3] at htf; exact Option.noConfusion htf
                  | some t =>
                  cases h4 : toFields s0 m rest with
                  | none => simp only [h3, h4] at htf; exact Option.noConfusion htf
                  | some ts =>
                      simp only [insertFieldsLoop, lookupNode_congr _ _ hn, h1, h2]
                      by_cases hr : f.dims.length = 0
                      · rw [if_pos hr, if_neg (show
                          ¬((nc_insert_compound gid tid f.name (offs.headD 0)
                              (getId s b) s.store).1 ≠ NC_NOERR) from by
                            simp [nc_insert_compound])]
                        obtain ⟨s', hrun, i1, i2, i3, i4, i5, i6, i7, i8, i9⟩ :=
                          ih m ts s0
                            { s with store := (nc_insert_compound gid tid f.name
                                (offs.headD 0) (getId s b) s.store).2 }
                            gid tid (offs.drop 1) h4 hn
                        exact ⟨s', hrun, i1, i2, i3, i4, i5, i6, i7, i8,
                          i9.trans (filter_addCall_notTypeDef _ s.store rfl)⟩
                      · rw [if_neg hr, if_neg (show
                          ¬((nc_insert_array_compound gid tid f.name (offs.headD 0)
                              (getId s b) f.dims.length (getDimsizes s f) s.store).1 ≠
                              NC_NOERR) from by
                            simp [nc_insert_array_compound])]
                        obtain ⟨s', hrun, i1, i2, i3, i4, i5, i6, i7, i8, i9⟩ :=
                          ih m ts s0
                            { s with store := (nc_insert_array_compound gid tid f.name
                                (offs.headD 0) (getId s b) f.dims.length
                                (getDimsizes s f) s.store).2 }
                            gid tid (offs.drop 1) h4 hn
                        exact ⟨s', hrun, i1, i2, i3, i4, i5, i6, i7, i8,
                          i9.trans (filter_addCall_notTypeDef _ s.store rfl)⟩

/-- `buildCompound` on a name not yet present in the defining group: the
compound is defined with a fresh id, registered under the name, the node's
build-result slot receives the id, and exactly one type-definition call is
issued. -/
theorem buildCompound_fresh (s : BState) (cmpdNid gid : Nat) (nm : String)
    (cmpd : NodeRec) (fts : List (String × Layout.D4Type))
    (hlk : lookupNode s cmpdNid = some cmpd)
    (htf : toFields s (bigFuel s) cmpd.vars = some fts)
    (hfresh : lookupType s.store gid nm = none) :
    ∃ s', buildCompound s cmpdNid gid (some nm) = .ok (NC_NOERR, s') ∧
      s'.nodes = s.nodes ∧
      s'.ids = (cmpdNid, s.store.nextId) :: s.ids ∧
      s'.cmpdids = s.cmpdids ∧ s'.root = s.root ∧ s'.ncid = s.ncid ∧
      s'.store.typesByName = s.store.typesByName ++ [(gid, nm, s.store.nextId)] ∧
      s'.store.nextId = s.store.nextId + 1 ∧
      s'.store.failDefVar = s.store.failDefVar ∧
      s'.store.trace.filter Call.isTypeDef =
        s.store.trace.filter Call.isTypeDef ++
          [Call.defCompound gid (Layout.computeOffsetsFrom 0 fts).2 (some nm)] := by
  have hne : (nc_def_compound gid (Layout.computeOffsetsFrom 0 fts).2 (some nm) s.store) =
      (NC_NOERR, s.store.nextId,
        { addCall (Call.defCompound gid (Layout.computeOffsetsFrom 0 fts).2 (some nm))
            s.store with
          nextId := s.store.nextId + 1,
          typesByName := s.store.typesByName ++ [(gid, nm, s.store.nextId)] }) := by
    simp only [nc_def_compound, defineType, lookupType_addCall]
    rw [hfresh]
    simp [addCall]
  simp only [buildCompound, hlk, htf, hne]
  rw [if_neg (by simp)]
  set stMid : Store :=
    { addCall (Call.defCompound gid (Layout.computeOffsetsFrom 0 fts).2 (some nm))
        s.store with
      nextId := s.store.nextId + 1,
      typesByName := s.store.typesByName ++ [(gid, nm, s.store.nextId)] } with hstMid
  obtain ⟨s', hrun, i1, i2, i3, i4, i5, i6, i7, i8, i9⟩ :=
    insertFieldsLoop_ok cmpd.vars (bigFuel s) fts s
      (setId { s with store := stMid } cmpdNid s.store.nextId)
      gid s.store.nextId (Layout.computeOffsetsFrom 0 fts).1 htf rfl
  refine ⟨s', ?_, i1, ?_, i3, i4, i5, ?_, ?_, ?_, ?_⟩
  · simpa [setId] using hrun
  · simpa [setId] using i2
  · simpa [setId, hstMid, addCall] using i6
  · simpa [setId, hstMid, addCall] using i7
  · simpa [setId, hstMid, addCall] using i8
  · refine i9.trans ?_
    show (stMid.trace).filter Call.isTypeDef = _
    have : stMid.trace = s.store.trace ++
        [Call.defCompound gid (Layout.computeOffsetsFrom 0 fts).2 (some nm)] := rfl
    rw [this, List.filter_append]
    rfl

theorem getId_eq_of_ids (s' : BState) (nid v : Nat) (l : List (Nat × Nat))
    (h : s'.ids = (nid, v) :: l) : getId s' nid = v := by
  simp [getId, h, List.find?_cons]

/-- `buildStructureType` when the probe finds the resolved name already
defined: the existing id is adopted, nothing is defined. -/
theorem buildStructureType_adopt (s : BState) (nid : Nat) (n : NodeRec)
    (gnid : Nat) (gn : Nat × String) (tid : Nat)
    (h1 : lookupNode s nid = some n)
    (h2 : groupFor s (s.nodes.length + 1) nid = some gnid)
    (h3 : structNameGroup s n gnid = some gn)
    (h4 : lookupType s.store (getId s gn.1) gn.2 = some tid) :
    ∃ s', buildStructureType s nid = .ok (NC_NOERR, s') ∧
      getId s' nid = tid ∧
      s'.store.typesByName = s.store.typesByName ∧
      s'.store.trace.filter Call.isTypeDef =
        s.store.trace.filter Call.isTypeDef := by
  simp only [buildStructureType, h1, h2, h3, nc_inq_typeid]
  rw [lookupType_addCall, h4]
  rw [if_pos rfl]
  refine ⟨_, rfl, getId_setId_same _ nid tid, rfl, ?_⟩
  exact filter_addCall_notTypeDef _ s.store rfl

/-- `buildStructureType` when the probe misses: exactly one type definition
is issued, the name is registered with the fresh id, and the node's
build-result slot receives that id. -/
theorem buildStructureType_fresh (s : BState) (nid : Nat) (n : NodeRec)
    (gnid : Nat) (gn : Nat × String) (fts : List (String × Layout.D4Type))
    (h1 : lookupNode s nid = some n)
    (h2 : groupFor s (s.nodes.length + 1) nid = some gnid)
    (h3 : structNameGroup s n gnid = some gn)
    (h4 : lookupType s.store (getId s gn.1) gn.2 = none)
    (h5 : toFields s (bigFuel s) n.vars = some fts) :
    ∃ s', buildStructureType s nid = .ok (NC_NOERR, s') ∧
      getId s' nid = s.store.nextId ∧
      lookupType s'.store (getId s gn.1) gn.2 = some s.store.nextId ∧
      s'.store.trace.filter Call.isTypeDef =
        s.store.trace.filter Call.isTypeDef ++
          [Call.defCompound (getId s gn.1)
            (Layout.computeOffsetsFrom 0 fts).2 (some gn.2)] := by
  simp only [buildStructureType, h1, h2, h3, nc_inq_typeid]
  rw [lookupType_addCall, h4]
  rw [if_neg (by simp [NC_EBADTYPE, NC_NOERR])]
  set s1 : BState :=
    { s with store := addCall (Call.inqTypeid (getId s gn.1) gn.2) s.store } with hs1
  have hlk1 : lookupNode s1 nid = some n :=
    (lookupNode_congr s s1 rfl nid).trans h1
  have htf1 : toFields s1 (bigFuel s1) n.vars = some fts := by
    rw [show bigFuel s1 = bigFuel s from rfl]
    rw [(toConv_congr s s1 rfl rfl (bigFuel s)).2 n.vars]
    exact h5
  have hfresh1 : lookupType s1.store (getId s gn.1) gn.2 = none := by
    rw [hs1]
    rw [lookupType_addCall]
    exact h4
  obtain ⟨s', hrun, i1, i2, i3, i4, i5, i6, i7, i8, i9⟩ :=
    buildCompound_fresh s1 nid (getId s gn.1) gn.2 n fts hlk1 htf1 hfresh1
  refine ⟨s', hrun, ?_, ?_, ?_⟩
  · exact getId_eq_of_ids s' nid _ _ i2
  · show (s'.store.typesByName.find? _).map _ = _
    rw [i6]
    exact lookupType_append_self s1.store _ _ _ hfresh1
  · rw [i9]
    rw [show s1.store.trace.filter Call.isTypeDef =
        s.store.trace.filter Call.isTypeDef from
      filter_addCall_notTypeDef _ s.store rfl]

/-- `buildSequenceType` when the probe finds the vlen wrapper name already
defined: the existing id is adopted, nothing is defined. -/
theorem buildSequenceType_adopt (s : BState) (nid : Nat) (n : NodeRec)
    (gnid : Nat) (res : Nat × String × Option String) (tid : Nat)
    (h1 : lookupNode s nid = some n)
    (h2 : groupFor s (s.nodes.length + 1) nid = some gnid)
    (h3 : seqNameGroup s n gnid = some res)
    (h4 : lookupType s.store (getId s res.1) res.2.1 = some tid) :
    ∃ s', buildSequenceType s nid = .ok (NC_NOERR, s') ∧
      getId s' nid = tid ∧
      s'.store.typesByName = s.store.typesByName ∧
      s'.store.trace.filter Call.isTypeDef =
        s.store.trace.filter Call.isTypeDef := by
  simp only [buildSequenceType, h1, h2, h3, nc_inq_typeid]
  rw [lookupType_addCall, h4]
  rw [if_pos rfl]
  refine ⟨_, rfl, getId_setId_same _ nid tid, rfl, ?_⟩
  exact filter_addCall_notTypeDef _ s.store rfl

/-- `buildSequenceType` when the probe misses on a sequence without the
direct-vlen marker: the inner compound and the vlen wrapper are both
defined — two type-definition calls — the wrapper name is registered with
the second fresh id, and the node's slot receives it. -/
theorem buildSequenceType_fresh (s : BState) (nid : Nat) (n : NodeRec)
    (gnid g : Nat) (vn cn : String) (fts : List (String × Layout.D4Type))
    (h1 : lookupNode s nid = some n)
    (h2 : groupFor s (s.nodes.length + 1) nid = some gnid)
    (h3 : seqNameGroup s n gnid = some (g, vn, some cn))
    (h4 : lookupType s.store (getId s g) vn = none)
    (h5 : lookupType s.store (getId s g) cn = none)
    (hvne : cn ≠ vn)
    (hnomark : ¬((NCD4_findAttr s n UCARTAGVLEN).isSome ∧ n.vars.length = 1))
    (htf : toFields s (bigFuel s) n.vars = some fts) :
    ∃ s', buildSequenceType s nid = .ok (NC_NOERR, s') ∧
      getId s' nid = s.store.nextId + 1 ∧
      lookupType s'.store (getId s g) vn = some (s.store.nextId + 1) ∧
      s'.store.trace.filter Call.isTypeDef =
        s.store.trace.filter Call.isTypeDef ++
          [Call.defCompound (getId s g)
            (Layout.computeOffsetsFrom 0 fts).2 (some cn),
           Call.defVlen (getId s g) vn s.store.nextId] := by
  simp only [buildSequenceType, h1, h2, h3, nc_inq_typeid]
  rw [lookupType_addCall, h4]
  rw [if_neg (by simp [NC_EBADTYPE, NC_NOERR])]
  set s1 : BState :=
    { s with store := addCall (Call.inqTypeid (getId s g) vn) s.store } with hs1
  have hmark1 : ¬((NCD4_findAttr s1 n UCARTAGVLEN).isSome ∧ n.vars.length = 1) := by
    rw [findAttr_congr s s1 rfl n UCARTAGVLEN]
    exact hnomark
  rw [if_neg hmark1]
  have hlk1 : lookupNode s1 nid = some n :=
    (lookupNode_congr s s1 rfl nid).trans h1
  have htf1 : toFields s1 (bigFuel s1) n.vars = some fts := by
    rw [show bigFuel s1 = bigFuel s from rfl]
    rw [(toConv_congr s s1 rfl rfl (bigFuel s)).2 n.vars]
    exact htf
  have hfresh1 : lookupType s1.store (getId s g) cn = none := by
    rw [hs1, lookupType_addCall]
    exact h5
  obtain ⟨s2, hrun, i1, i2, i3, i4, i5, i6, i7, i8, i9⟩ :=
    buildCompound_fresh s1 nid (getId s g) cn n fts hlk1 htf1 hfresh1
  rw [hrun]
  dsimp only
  rw [if_neg (by simp)]
  have hid2 : getId s2 nid = s.store.nextId := getId_eq_of_ids s2 nid _ _ i2
  set s3 : BState := { s2 with cmpdids := (nid, getId s2 nid) :: s2.cmpdids } with hs3
  have hvlenfresh : lookupType s3.store (getId s g) vn = none := by
    show (s3.store.typesByName.find? _).map _ = none
    rw [show s3.store.typesByName = s2.store.typesByName from rfl, i6]
    exact lookupType_append_other s1.store (getId s g) cn vn _
      (by rw [hs1, lookupType_addCall]; exact h4) hvne
  have hdefv : nc_def_vlen (getId s g) vn (getId s2 nid) s3.store =
      (NC_NOERR, s3.store.nextId,
        { addCall (Call.defVlen (getId s g) vn (getId s2 nid)) s3.store with
          nextId := s3.store.nextId + 1,
          typesByName := s3.store.typesByName ++
            [(getId s g, vn, s3.store.nextId)] }) := by
    simp only [nc_def_vlen, defineType, lookupType_addCall]
    rw [show lookupType s2.store (getId s g) vn = none from hvlenfresh]
    simp [addCall]
  rw [hdefv]
  rw [if_neg (by simp)]
  refine ⟨_, rfl, ?_, ?_, ?_⟩
  · have : s3.store.nextId = s.store.nextId + 1 := by
      show s2.store.nextId = s.store.nextId + 1
      rw [i7]
      rfl
    rw [getId_setId_same]
    exact this
  · have hni : s3.store.nextId = s.store.nextId + 1 := by
      show s2.store.nextId = s.store.nextId + 1
      rw [i7]
      rfl
    show ((s3.store.typesByName ++ [(getId s g, vn, s3.store.nextId)]).find?
        (fun q => q.1 = getId s g ∧ q.2.1 = vn)).map (fun q => q.2.2) =
      some (s.store.nextId + 1)
    rw [← hni]
    exact lookupType_append_self s3.store _ _ _ hvlenfresh
  · have hni : s3.store.nextId = s.store.nextId + 1 := by
      show s2.store.nextId = s.store.nextId + 1
      rw [i7]
      rfl
    have hstep : (addCall (Call.defVlen (getId s g) vn (getId s2 nid))
        s3.store).trace.filter Call.isTypeDef =
        s3.store.trace.filter Call.isTypeDef ++
          [Call.defVlen (getId s g) vn (getId s2 nid)] :=
      filter_addCall_typeDef _ s3.store rfl
    show (addCall (Call.defVlen (getId s g) vn (getId s2 nid))
        s3.store).trace.filter Call.isTypeDef = _
    rw [hstep]
    rw [show s3.store.trace.filter Call.isTypeDef =
        s2.store.trace.filter Call.isTypeDef from rfl]
    rw [i9]
    rw [show s1.store.trace.filter Call.isTypeDef =
        s.store.trace.filter Call.isTypeDef from
      filter_addCall_notTypeDef _ s.store rfl]
    rw [hid2]
    simp

end Build

/-- C8 counterexample: for a sequence type without the direct-vlen marker,
the FIRST visit issues TWO destination-store type definitions (the inner
compound and the vlen wrapper), not "exactly one" as the claim states; the
second visit still adopts the existing wrapper id without defining
anything further. -/
theorem buildSequenceType_two_typedefs :
    (Build.buildSequenceType Build.schemaComposites 8).map
        (fun r => (r.1, (r.2.store.trace.filter Build.Call.isTypeDef).length)) =
      .ok (NC_NOERR, 2) ∧
    ((Build.buildSequenceType Build.schemaComposites 8).bind
        (fun r => Build.buildSequenceType r.2 8)).map
        (fun r => (r.1, (r.2.store.trace.filter Build.Call.isTypeDef).length,
          Build.getId r.2 8)) =
      .ok (NC_NOERR, 2, 101) ∧
    (2 : Nat) ≠ 1 := by
  exact ⟨rfl, rfl, by decide⟩

/-- C8 as amended: the build of a composite type is idempotent per
synthesized name — a visit whose probe finds the resolved name already in
the defining group adopts the existing id and issues no definition call at
all, while a visit whose probe misses issues exactly one type-definition
call per synthesized type (one compound for a structure; one inner
compound plus one vlen wrapper — two calls — for a sequence without the
direct-vlen marker) and registers the name so that later visits adopt. -/
theorem composite_type_probe_idempotent :
    (∀ (s : Build.BState) (nid : Nat) (n : Build.NodeRec) (gnid : Nat)
        (gn : Nat × String) (tid : Nat),
      Build.lookupNode s nid = some n →
      Build.groupFor s (s.nodes.length + 1) nid = some gnid →
      Build.structNameGroup s n gnid = some gn →
      Build.lookupType s.store (Build.getId s gn.1) gn.2 = some tid →
      ∃ s', Build.buildStructureType s nid = .ok (NC_NOERR, s') ∧
        Build.getId s' nid = tid ∧
        s'.store.typesByName = s.store.typesByName ∧
        s'.store.trace.filter Build.Call.isTypeDef =
          s.store.trace.filter Build.Call.isTypeDef) ∧
    (∀ (s : Build.BState) (nid : Nat) (n : Build.NodeRec) (gnid : Nat)
        (gn : Nat × String) (fts : List (String × Layout.D4Type)),
      Build.lookupNode s nid = some n →
      Build.groupFor s (s.nodes.length + 1) nid = some gnid →
      Build.structNameGroup s n gnid = some gn →
      Build.lookupType s.store (Build.getId s gn.1) gn.2 = none →
      Build.toFields s (Build.bigFuel s) n.vars = some fts →
      ∃ s', Build.buildStructureType s nid = .ok (NC_NOERR, s') ∧
        Build.getId s' nid = s.store.nextId ∧
        Build.lookupType s'.store (Build.getId s gn.1) gn.2 =
          some s.store.nextId ∧
        s'.store.trace.filter Build.Call.isTypeDef =
          s.store.trace.filter Build.Call.isTypeDef ++
            [Build.Call.defCompound (Build.getId s gn.1)
              (Layout.computeOffsetsFrom 0 fts).2 (some gn.2)]) ∧
    (∀ (s : Build.BState) (nid : Nat) (n : Build.NodeRec) (gnid : Nat)
        (res : Nat × String × Option String) (tid : Nat),
      Build.lookupNode s nid = some n →
      Build.groupFor s (s.nodes.length + 1) nid = some gnid →
      Build.seqNameGroup s n gnid = some res →
      Build.lookupType s.store (Build.getId s res.1) res.2.1 = some tid →
      ∃ s', Build.buildSequenceType s nid = .ok (NC_NOERR, s') ∧
        Build.getId s' nid = tid ∧
        s'.store.typesByName = s.store.typesByName ∧
        s'.store.trace.filter Build.Call.isTypeDef =
          s.store.trace.filter Build.Call.isTypeDef) ∧
    (∀ (s : Build.BState) (nid : Nat) (n : Build.NodeRec) (gnid g : Nat)
        (vn cn : String) (fts : List (String × Layout.D4Type)),
      Build.lookupNode s nid = some n →
      Build.groupFor s (s.nodes.length + 1) nid = some gnid →
      Build.seqNameGroup s n gnid = some (g, vn, some cn) →
      Build.lookupType s.store (Build.getId s g) vn = none →
      Build.lookupType s.store (Build.getId s g) cn = none →
      cn ≠ vn →
      ¬((Build.NCD4_findAttr s n Build.UCARTAGVLEN).isSome ∧ n.vars.length = 1) →
      Build.toFields s (Build.bigFuel s) n.vars = some fts →
      ∃ s', Build.buildSequenceType s nid = .ok (NC_NOERR, s') ∧
        Build.getId s' nid = s.store.nextId + 1 ∧
        Build.lookupType s'.store (Build.getId s g) vn =
          some (s.store.nextId + 1) ∧
        s'.store.trace.filter Build.Call.isTypeDef =
          s.store.trace.filter Build.Call.isTypeDef ++
            [Build.Call.defCompound (Build.getId s g)
              (Layout.computeOffsetsFrom 0 fts).2 (some cn),
             Build.Call.defVlen (Build.getId s g) vn s.store.nextId]) := by
  exact ⟨Build.buildStructureType_adopt, Build.buildStructureType_fresh,
    Build.buildSequenceType_adopt, Build.buildSequenceType_fresh⟩

/-- Witness for `composite_type_probe_idempotent`, at the concrete
two-field composites: a fresh first visit of the structure issues exactly
one type definition; a visit with the name pre-defined adopts id 100 (the
structure) or 101 (the sequence wrapper) with no definitions; a fresh
first visit of the unmarked sequence issues exactly two. -/
theorem composite_type_probe_idempotent_witness :
    (Build.buildStructureType Build.schemaComposites 5).map
        (fun r => (r.1, (r.2.store.trace.filter Build.Call.isTypeDef).length)) =
      .ok (NC_NOERR, 1) ∧
    (Build.buildStructureType Build.schemaCompositesPre 5).map
        (fun r => (r.1, Build.getId r.2 5,
          (r.2.store.trace.filter Build.Call.isTypeDef).length)) =
      .ok (NC_NOERR, 100, 0) ∧
    (Build.buildSequenceType Build.schemaCompositesPre 8).map
        (fun r => (r.1, Build.getId r.2 8,
          (r.2.store.trace.filter Build.Call.isTypeDef).length)) =
      .ok (NC_NOERR, 101, 0) ∧
    (Build.buildSequenceType Build.schemaComposites 8).map
        (fun r => (r.1,
          (r.2.store.trace.filter Build.Call.isTypeDef).length)) =
      .ok (NC_NOERR, 2) := by
  refine ⟨?_, ?_, ?_, ?_⟩
  · obtain ⟨s', hrun, hid, hlook, htr⟩ :=
      composite_type_probe_idempotent.2.1 Build.schemaComposites 5 Build.stNode 0
        (0, "st_t") Build.xyFields rfl rfl rfl rfl rfl
    rw [hrun]
    simp [Except.map, htr, Build.schemaComposites]
  · obtain ⟨s', hrun, hid, htys, htr⟩ :=
      composite_type_probe_idempotent.1 Build.schemaCompositesPre 5 Build.stNode 0
        (0, "st_t") 100 rfl rfl rfl rfl
    rw [hrun]
    simp [Except.map, htr, hid, Build.schemaCompositesPre]
  · obtain ⟨s', hrun, hid, htys, htr⟩ :=
      composite_type_probe_idempotent.2.2.1 Build.schemaCompositesPre 8
        Build.sqNode 0 (0, "sq_t", some "sq_cmpd_t") 101 rfl rfl rfl rfl
    rw [hrun]
    simp [Except.map, htr, hid, Build.schemaCompositesPre]
  · obtain ⟨s', hrun, hid, hlook, htr⟩ :=
      composite_type_probe_idempotent.2.2.2 Build.schemaComposites 8
        Build.sqNode 0 0 "sq_t" "sq_cmpd_t" Build.xyFields rfl rfl rfl rfl rfl
        (by decide) (by decide) rfl
    rw [hrun]
    simp [Except.map, htr, Build.schemaComposites]

namespace Build

theorem mapFQNs_spec (s : BState) (maps : List Nat) :
    ∀ fqns, mapFQNs s maps = some fqns →
      fqns.length = maps.length ∧
      ∀ (i : Nat) (h : i < maps.length) (h' : i < fqns.length),
        NCD4_makeFQN s (maps.get ⟨i, h⟩) = some (fqns.get ⟨i, h'⟩) := by
  induction maps with
  | nil =>
      intro fqns h
      simp only [mapFQNs, Option.some.injEq] at h
      subst h
      exact ⟨rfl, fun i hi => absurd hi (by simp)⟩
  | cons m rest ih =>
      intro fqns h
      simp only [mapFQNs] at h
      cases hf : NCD4_makeFQN s m with
      | none => rw [hf] at h; exact Option.noConfusion h
      | some f =>
          rw [hf] at h
          cases hr : mapFQNs s rest with
          | none => rw [hr] at h; exact Option.noConfusion h
          | some fs =>
              rw [hr] at h
              simp only [Option.some.injEq] at h
              subst h
              obtain ⟨hlen, hidx⟩ := ih fs hr
              refine ⟨by simp [hlen], ?_⟩
              intro i hi hi'
              cases i with
              | zero => simpa using hf
              | succ k =>
                  simpa using hidx k (Nat.lt_of_succ_lt_succ hi)
                    (Nat.lt_of_succ_lt_succ hi')

end Build

/-- C9: for a variable with k ≥ 1 map references, `buildMaps` issues exactly
one `nc_put_att` call — a single multi-valued text attribute under the
reserved maps tag whose value is the list of the k fully qualified names of
the mapped variables, in declared map order (the outer loop's induction
variable is shared with the inner collection loop, so the body runs exactly
once and carries all k names). -/
theorem buildMaps_single_attribute :
    (∀ (s : Build.BState) (nid : Nat) (var : Build.NodeRec) (gnid : Nat)
        (fqns : List String),
      Build.lookupNode s nid = some var →
      0 < var.maps.length →
      Build.mapFQNs s var.maps = some fqns →
      Build.groupFor s (s.nodes.length + 1) nid = some gnid →
      Build.buildMaps s nid =
        .ok (NC_NOERR,
          { s with store := (Build.addCall
              (Build.Call.putAtt (Build.getId s gnid) (Build.getId s nid)
                Build.NC4TAGMAPS NC_STRING var.maps.length
                (.strings fqns)) s.store) })) ∧
    (∀ (s : Build.BState) (maps : List Nat) (fqns : List String),
      Build.mapFQNs s maps = some fqns → fqns.length = maps.length) ∧
    (∀ (s : Build.BState) (maps : List Nat) (fqns : List String)
        (i : Nat) (h : i < maps.length) (h' : i < fqns.length),
      Build.mapFQNs s maps = some fqns →
      Build.NCD4_makeFQN s (maps.get ⟨i, h⟩) = some (fqns.get ⟨i, h'⟩)) := by
  refine ⟨?_, fun s maps fqns h => (Build.mapFQNs_spec s maps fqns h).1,
    fun s maps fqns i h h' hm => (Build.mapFQNs_spec s maps fqns hm).2 i h h'⟩
  intro s nid var gnid fqns h1 hpos h2 h3
  simp only [Build.buildMaps, h1]
  rw [show var.maps.length + 2 = (var.maps.length + 1) + 1 from rfl]
  simp only [Build.buildMapsLoop]
  rw [if_pos hpos, h2, h3]
  simp only [Build.nc_put_att]
  rw [if_neg (by simp)]
  rw [if_neg (by omega)]

/-- Witness for `buildMaps_single_attribute`: the variable of `schemaMapped`
with two map references to A and B receives exactly one attribute holding
["/A", "/B"], in that order. -/
theorem buildMaps_single_attribute_witness :
    (Build.buildMaps Build.schemaMapped 1).map
        (fun r => (r.1, r.2.store.trace)) =
      .ok (NC_NOERR,
        [Build.Call.putAtt 77 55 Build.NC4TAGMAPS NC_STRING 2
          (.strings ["/A", "/B"])]) := by
  have h := buildMaps_single_attribute.1 Build.schemaMapped 1
    { nid := 1, sort := .var, subsort := NC_INT, name := "v",
      container := some 0, maps := [2, 3] }
    0 ["/A", "/B"] rfl (by decide) rfl rfl
  rw [h]
  rfl


